import Mathlib

/-!
Verification of the wollok-ts validator (`src/validator.ts`) and the `game`/`Sound`
native bridge (`src/wre/game.ts`) against their natural-language specification.

The first half embeds the validator: the AST node model, the rule predicates, and
the driver that folds over the tree collecting `Problem`s.  JavaScript runtime
failures (reading a property of `undefined`) are modelled with `Except String`.

The second half embeds the runtime object model and the natives of the `game` and
`Sound` modules: a heap of `RuntimeObject`s indexed by `Id`, an operand stack, and
natives that either return an updated evaluation or throw a runtime error while
keeping the mutations performed so far.
-/

namespace WollokTs

/-- Severity of a diagnostic, "Warning" or "Error" in the source. -/
inductive Level where
  | warning
  | error
deriving DecidableEq, Repr

/-- A formal parameter: `Parameter` nodes carry a name and the `isVarArg` flag. -/
structure Parameter where
  name : String
  isVarArg : Bool
deriving DecidableEq, Repr

/-- The closed set of node kinds of the AST (`NodeKind` in `model.ts`). -/
inductive NodeKind where
  | Parameter
  | Import
  | Body
  | Catch
  | Package
  | Program
  | Test
  | Class
  | Singleton
  | Mixin
  | Constructor
  | Field
  | Method
  | Variable
  | Return
  | Assignment
  | Reference
  | Self
  | New
  | Literal
  | Send
  | Super
  | If
  | Throw
  | Try
  | Environment
  | Describe
deriving DecidableEq, Repr

/-- The AST node model.  Bodies are inlined as sentence lists (a `Body` node has no
validation rule of its own, so inlining it does not change the produced problems).
`method` and `constructorN` carry a `nodeId` so that the JavaScript reference
inequality `member1 !== member2` between two members of the same class can be
modelled: distinct member objects of a parsed tree always have distinct ids. -/
inductive Node where
  | environment (members : List Node)
  | package (name : String) (members : List Node)
  | classN (name : String) (members : List Node)
  | singleton (name : Option String) (members : List Node)
  | mixin (name : String) (members : List Node)
  | field (name : String)
  | method (nodeId : Nat) (name : String) (parameters : List Parameter) (body : Option (List Node))
  | constructorN (nodeId : Nat) (parameters : List Parameter) (body : List Node)
  | program (name : String) (body : List Node)
  | test (name : String) (body : List Node)
  | describe (name : String) (members : List Node)
  | parameterN (p : Parameter)
  | variableN (name : String)
  | returnN
  | assignment (referenceName : String)
  | importN (referenceName : String)
  | reference (name : String)
  | selfN
  | newN
  | literal
  | send
  | superN
  | ifN
  | throwN
  | tryN (body : List Node) (catches : List Node) (always : List Node)
  | catchN (body : List Node)

/-- The `kind` tag of a node. -/
def Node.kind : Node → NodeKind
  | .environment _ => .Environment
  | .package _ _ => .Package
  | .classN _ _ => .Class
  | .singleton _ _ => .Singleton
  | .mixin _ _ => .Mixin
  | .field _ => .Field
  | .method _ _ _ _ => .Method
  | .constructorN _ _ _ => .Constructor
  | .program _ _ => .Program
  | .test _ _ => .Test
  | .describe _ _ => .Describe
  | .parameterN _ => .Parameter
  | .variableN _ => .Variable
  | .returnN => .Return
  | .assignment _ => .Assignment
  | .importN _ => .Import
  | .reference _ => .Reference
  | .selfN => .Self
  | .newN => .New
  | .literal => .Literal
  | .send => .Send
  | .superN => .Super
  | .ifN => .If
  | .throwN => .Throw
  | .tryN _ _ _ => .Try
  | .catchN _ => .Catch

/-- The `name` property of a node, `none` when the variant has no name (reading
`.name` on such a node yields `undefined` in JavaScript). -/
def Node.nameOf : Node → Option String
  | .package n _ => some n
  | .classN n _ => some n
  | .singleton n _ => n
  | .mixin n _ => some n
  | .field n => some n
  | .method _ n _ _ => some n
  | .program n _ => some n
  | .test n _ => some n
  | .describe n _ => some n
  | .parameterN p => some p.name
  | .variableN n => some n
  | .reference n => some n
  | _ => none

/-- Member list of a container node, `none` when the variant has no `members`. -/
def Node.membersOf : Node → Option (List Node)
  | .environment ms => some ms
  | .package _ ms => some ms
  | .classN _ ms => some ms
  | .singleton _ ms => some ms
  | .mixin _ ms => some ms
  | .describe _ ms => some ms
  | _ => none

/-- A diagnostic: `Problem { code, level, node }` in the source. -/
structure Problem where
  level : Level
  code : String
  node : Node

/-- The `problem` combinator of the source: a `Problem` is produced exactly when the
condition of the rule is false on the node. -/
def problemOf (level : Level) (condition : Bool) (node : Node) (code : String) : Option Problem :=
  if !condition then some ⟨level, code, node⟩ else none

/-- Short-circuiting `Array.prototype.some` with a predicate that may throw. -/
def someM {α : Type} (p : α → Except String Bool) : List α → Except String Bool
  | [] => Except.ok false
  | x :: xs => do
    let b ← p x
    if b then pure true else someM p xs

/-- Short-circuiting `Array.prototype.every` with a predicate that may throw. -/
def everyM {α : Type} (p : α → Except String Bool) : List α → Except String Bool
  | [] => Except.ok true
  | x :: xs => do
    let b ← p x
    if b then everyM p xs else pure false

/-- A member that has arguments (`Method | Constructor`), reduced to the data
`canBeCalledWithArgs` actually reads: its identity and its parameter list. -/
structure HaveArgs where
  nodeId : Nat
  parameters : List Parameter
deriving DecidableEq, Repr

/-- The overload-compatibility check of the source:

`((member2.parameters[member2.parameters.length - 1].isVarArg && member1.parameters.length >= member2.parameters.length) || member2.parameters.length === member1.parameters.length) && member1 !== member2`

When `member2.parameters` is empty, the index `-1` yields `undefined` and reading
`.isVarArg` on it throws a `TypeError`; this is modelled by `Except.error`. -/
def canBeCalledWithArgs (member1 member2 : HaveArgs) : Except String Bool :=
  match member2.parameters.getLast? with
  | none => Except.error "Cannot read property isVarArg of undefined"
  | some lastParam =>
    Except.ok (((lastParam.isVarArg && decide (member1.parameters.length ≥ member2.parameters.length))
      || decide (member2.parameters.length = member1.parameters.length))
      && decide (member1.nodeId ≠ member2.nodeId))

/-- Embeds `matchingSignatures(list, member)`: some list element is a `Method` with the
same name that can be called with the arguments of `member`. -/
def matchingSignatures (list : List Node) (memberName : String) (member : HaveArgs) :
    Except String Bool :=
  someM (fun m => match m with
    | Node.method i n ps _ =>
      if n = memberName then canBeCalledWithArgs ⟨i, ps⟩ member else Except.ok false
    | _ => Except.ok false) list

/-- Embeds `matchingConstructors(list, member)`: some list element is a `Constructor`
that can be called with the arguments of `member`. -/
def matchingConstructors (list : List Node) (member : HaveArgs) : Except String Bool :=
  someM (fun m => match m with
    | Node.constructorN i ps _ => canBeCalledWithArgs ⟨i, ps⟩ member
    | _ => Except.ok false) list

/-- Condition of the `methodsHaveDistinctSignatures` rule: every member of the class
is a `Method` with no matching signature among the members. -/
def methodsHaveDistinctSignaturesCond (members : List Node) : Except String Bool :=
  everyM (fun member => match member with
    | Node.method i n ps _ => do
      let b ← matchingSignatures members n ⟨i, ps⟩
      pure (!b)
    | _ => Except.ok false) members

/-- Condition of the `constructorsHaveDistinctArity` rule: every member of the parent
class is a `Constructor` with no matching constructor among the members. -/
def constructorsHaveDistinctArityCond (members : List Node) : Except String Bool :=
  everyM (fun member => match member with
    | Node.constructorN i ps _ => do
      let b ← matchingConstructors members ⟨i, ps⟩
      pure (!b)
    | _ => Except.ok false) members

/-- Condition of `onlyLastParameterIsVarArg`:
`node.parameters.findIndex(p => p.isVarArg) + 1 === node.parameters.length`.
JavaScript `findIndex` returns `-1` when nothing matches, so the left side is `0`
in that case. -/
def onlyLastParameterIsVarArgCond (ps : List Parameter) : Bool :=
  decide ((match ps.findIdx? (fun p => p.isVarArg) with
    | some i => i + 1
    | none => 0) = ps.length)

/-- Condition of `hasCatchOrAlways`:
`t.catches.length !== 0 || t.always.sentences.length !== 0 && t.body.sentences.length !== 0`
(JavaScript precedence: `a || (b && c)`). -/
def hasCatchOrAlwaysCond (body catches always : List Node) : Bool :=
  decide (catches.length ≠ 0) || (decide (always.length ≠ 0) && decide (body.length ≠ 0))

/-- Condition of `nameIsPascalCase`: `/^[A-Z]$/.test(node.name[0])`. -/
def firstCharUpper (s : String) : Bool :=
  match s.data with
  | c :: _ => decide ('A' ≤ c ∧ c ≤ 'Z')
  | [] => false

/-- Condition of `nameIsCamelCase`: `node.name !== undefined && /^[a-z]$/.test(node.name[0])`. -/
def nameIsCamelCaseCond (name : Option String) : Bool :=
  match name with
  | some s =>
    match s.data with
    | c :: _ => decide ('a' ≤ c ∧ c ≤ 'z')
    | [] => false
  | none => false

/-- The reserved-word list of `nameIsNotKeyword`, verbatim from the source. -/
def keywords : List String :=
  [".", ",", "(", ")", ";", "_", "\x7b", "\x7d",
   "import", "package", "program", "test", "mixed with", "class", "inherits", "object", "mixin",
   "var", "const", "=", "override", "method", "native", "constructor",
   "self", "super", "new", "if", "else", "return", "throw", "try", "then always", "catch", ":", "+",
   "null", "false", "true", "=>"]

/-- Condition of `nameIsNotKeyword`. -/
def nameIsNotKeywordCond (name : String) : Bool :=
  decide (name ∉ keywords)

/-- Condition of `methodNotOnlyCallToSuper`:
`!(node.body!.sentences.length === 1 && node.body!.sentences[0].kind === "Super")`.
A `Method` without a body (a native method) makes `node.body!` `undefined` and
reading `.sentences` throws. -/
def methodNotOnlyCallToSuperCond (body : Option (List Node)) : Except String Bool :=
  match body with
  | none => Except.error "Cannot read property sentences of undefined"
  | some sentences =>
    Except.ok (!(decide (sentences.length = 1) &&
      (match sentences.head? with
       | some s => decide (s.kind = NodeKind.Super)
       | none => false)))

/-- Condition of `importHasNotLocalReference`: no member of the enclosing package has
the name of the imported reference. -/
def importHasNotLocalReferenceCond (parentMembers : List Node) (refName : String) : Bool :=
  parentMembers.all (fun m => decide (m.nameOf ≠ some refName))

/-- Condition of `fieldNameDifferentFromTheMethods`: no sibling `Method` shares the
name of the field. -/
def fieldNameDifferentFromTheMethodsCond (parentMembers : List Node) (fieldName : String) : Bool :=
  (parentMembers.filter (fun m => decide (m.kind = NodeKind.Method))).all
    (fun m => decide (m.nameOf ≠ some fieldName))

/-- Condition of `nonAsignationOfFullyQualifiedReferences`: the name of the assigned
reference contains no dot. -/
def nonAsignationCond (refName : String) : Bool :=
  !(refName.contains '.')

/-- The `kind` of the parent node; `parentOf` fails on a node with no parent. -/
def parentKind : Option Node → Except String NodeKind
  | some p => Except.ok p.kind
  | none => Except.error "node has no parent"

/-- The member list of the parent node; reading `.members` on a parent that has none
yields `undefined` and the subsequent `.every`/`.filter` call throws. -/
def parentMembersOf : Option Node → Except String (List Node)
  | some p =>
    match p.membersOf with
    | some ms => Except.ok ms
    | none => Except.error "Cannot read property every of undefined"
  | none => Except.error "node has no parent"

/-- Drop the `null` results, `reject(isNil)` in the source. -/
def collectProblems (os : List (Option Problem)) : List Problem :=
  os.filterMap id

/-- The checks the driver runs at a single node: the rules registered for the kind of
the node in `problemsByKind`, evaluated in declaration order. -/
def checksFor (parent : Option Node) (n : Node) : Except String (List Problem) :=
  match n with
  | Node.parameterN p =>
    Except.ok (collectProblems
      [problemOf Level.warning (nameIsCamelCaseCond (some p.name)) n "nameIsCamelCase"])
  | Node.importN refName => do
    let ms ← parentMembersOf parent
    pure (collectProblems
      [problemOf Level.error (importHasNotLocalReferenceCond ms refName) n "importHasNotLocalReference"])
  | Node.program _ body =>
    Except.ok (collectProblems
      [problemOf Level.warning (decide (body.length ≠ 0)) n "programIsNotEmpty"])
  | Node.test _ body =>
    Except.ok (collectProblems
      [problemOf Level.warning (decide (body.length ≠ 0)) n "testIsNotEmpty"])
  | Node.classN name members => do
    let p1 := problemOf Level.warning (firstCharUpper name) n "nameIsPascalCase"
    let b ← methodsHaveDistinctSignaturesCond members
    pure (collectProblems [p1, problemOf Level.error b n "methodsHaveDistinctSignatures"])
  | Node.singleton name _ => do
    let p1 := problemOf Level.warning (nameIsCamelCaseCond name) n "nameIsCamelCase"
    let k ← parentKind parent
    pure (collectProblems [p1,
      problemOf Level.error (decide (k = NodeKind.Package) && decide (name ≠ none)) n "singletonIsNotUnnamed"])
  | Node.mixin name _ =>
    Except.ok (collectProblems [problemOf Level.warning (firstCharUpper name) n "nameIsPascalCase"])
  | Node.constructorN _ _ _ => do
    let ms ← parentMembersOf parent
    let b ← constructorsHaveDistinctArityCond ms
    pure (collectProblems [problemOf Level.error b n "constructorsHaveDistinctArity"])
  | Node.field name => do
    let ms ← parentMembersOf parent
    pure (collectProblems
      [problemOf Level.error (fieldNameDifferentFromTheMethodsCond ms name) n "fieldNameDifferentFromTheMethods"])
  | Node.method _ name ps body => do
    let p1 := problemOf Level.error (onlyLastParameterIsVarArgCond ps) n "onlyLastParameterIsVarArg"
    let p2 := problemOf Level.error (nameIsNotKeywordCond name) n "nameIsNotKeyword"
    let b ← methodNotOnlyCallToSuperCond body
    pure (collectProblems [p1, p2, problemOf Level.warning b n "methodNotOnlyCallToSuper"])
  | Node.variableN name =>
    Except.ok (collectProblems
      [problemOf Level.warning (nameIsCamelCaseCond (some name)) n "nameIsCamelCase",
       problemOf Level.error (nameIsNotKeywordCond name) n "nameIsNotKeyword"])
  | Node.assignment refName =>
    Except.ok (collectProblems
      [problemOf Level.error (nonAsignationCond refName) n "nonAsignationOfFullyQualifiedReferences"])
  | Node.reference name =>
    Except.ok (collectProblems [problemOf Level.error (nameIsNotKeywordCond name) n "nameIsNotKeyword"])
  | Node.tryN body catches always =>
    Except.ok (collectProblems
      [problemOf Level.error (hasCatchOrAlwaysCond body catches always) n "hasCatchOrAlways"])
  | _ => Except.ok []

mutual

/-- The validation driver: a pre-order fold (the `reduce` of `utils`) that at each
node evaluates the rules of the kind of the node and appends the non-null results.
`parent` is what `parentOf` returns for the node being visited. -/
def validate (parent : Option Node) : Node → Except String (List Problem)
  | Node.environment ms => do
    let here ← checksFor parent (Node.environment ms)
    let rest ← validateList (some (Node.environment ms)) ms
    pure (here ++ rest)
  | Node.package name ms => do
    let here ← checksFor parent (Node.package name ms)
    let rest ← validateList (some (Node.package name ms)) ms
    pure (here ++ rest)
  | Node.classN name ms => do
    let here ← checksFor parent (Node.classN name ms)
    let rest ← validateList (some (Node.classN name ms)) ms
    pure (here ++ rest)
  | Node.singleton name ms => do
    let here ← checksFor parent (Node.singleton name ms)
    let rest ← validateList (some (Node.singleton name ms)) ms
    pure (here ++ rest)
  | Node.mixin name ms => do
    let here ← checksFor parent (Node.mixin name ms)
    let rest ← validateList (some (Node.mixin name ms)) ms
    pure (here ++ rest)
  | Node.describe name ms => do
    let here ← checksFor parent (Node.describe name ms)
    let rest ← validateList (some (Node.describe name ms)) ms
    pure (here ++ rest)
  | Node.method i name ps body => do
    let here ← checksFor parent (Node.method i name ps body)
    let paramProblems := collectProblems (ps.map (fun p =>
      problemOf Level.warning (nameIsCamelCaseCond (some p.name)) (Node.parameterN p) "nameIsCamelCase"))
    let rest ← match body with
      | some sentences => validateList (some (Node.method i name ps body)) sentences
      | none => pure []
    pure (here ++ paramProblems ++ rest)
  | Node.constructorN i ps body => do
    let here ← checksFor parent (Node.constructorN i ps body)
    let paramProblems := collectProblems (ps.map (fun p =>
      problemOf Level.warning (nameIsCamelCaseCond (some p.name)) (Node.parameterN p) "nameIsCamelCase"))
    let rest ← validateList (some (Node.constructorN i ps body)) body
    pure (here ++ paramProblems ++ rest)
  | Node.program name body => do
    let here ← checksFor parent (Node.program name body)
    let rest ← validateList (some (Node.program name body)) body
    pure (here ++ rest)
  | Node.test name body => do
    let here ← checksFor parent (Node.test name body)
    let rest ← validateList (some (Node.test name body)) body
    pure (here ++ rest)
  | Node.tryN body catches always => do
    let here ← checksFor parent (Node.tryN body catches always)
    let r1 ← validateList (some (Node.tryN body catches always)) body
    let r2 ← validateList (some (Node.tryN body catches always)) catches
    let r3 ← validateList (some (Node.tryN body catches always)) always
    pure (here ++ r1 ++ r2 ++ r3)
  | Node.catchN body => do
    let here ← checksFor parent (Node.catchN body)
    let rest ← validateList (some (Node.catchN body)) body
    pure (here ++ rest)
  | n => checksFor parent n

/-- Validate a list of sibling nodes in source order. -/
def validateList (parent : Option Node) : List Node → Except String (List Problem)
  | [] => Except.ok []
  | x :: xs => do
    pure ((← validate parent x) ++ (← validateList parent xs))

end

/-- The result `r` contains a problem with the given level, code and node. -/
def yieldsProblem (r : Except String (List Problem)) (lvl : Level) (code : String) (n : Node) :
    Prop :=
  ∃ l, r = Except.ok l ∧ Problem.mk lvl code n ∈ l

theorem yieldsProblem_ok {l : List Problem} {lvl : Level} {code : String} {n : Node} :
    yieldsProblem (Except.ok l) lvl code n ↔ Problem.mk lvl code n ∈ l := by
  constructor
  · rintro ⟨l2, h, hm⟩
    injection h with h
    exact h ▸ hm
  · intro hm
    exact ⟨l, rfl, hm⟩

theorem mem_collectProblems {os : List (Option Problem)} {pr : Problem} :
    pr ∈ collectProblems os ↔ some pr ∈ os := by
  simp [collectProblems, List.mem_filterMap]

theorem eq_problemOf_warning_iff_false (c : Bool) (n n2 : Node) (code code2 : String) :
    (some (Problem.mk Level.error code n) = problemOf Level.warning c n2 code2) ↔ False := by
  cases c <;> simp [problemOf]

theorem eq_problemOf_error_iff (c : Bool) (n : Node) (code : String) :
    (some (Problem.mk Level.error code n) = problemOf Level.error c n code) ↔ c = false := by
  cases c <;> simp [problemOf]

/-- An `Environment` whose single package holds a class with one zero-parameter method. -/
def c2Environment : Node :=
  Node.environment [Node.package "p" [Node.classN "C" [Node.method 1 "m" [] (some [])]]]

/-- C2: the claim says `validate` never raises and in particular returns normally on a
class with a zero-parameter method.  It does not: `canBeCalledWithArgs` reads
`member2.parameters[-1].isVarArg`, which throws a `TypeError` as soon as
`methodsHaveDistinctSignatures` probes the zero-parameter method against itself, so
validating this environment aborts with an exception instead of returning problems. -/
theorem validate_throws_on_zero_parameter_method :
    validate none c2Environment = Except.error "Cannot read property isVarArg of undefined" := rfl

/-- A class whose only member is a field. -/
def c3FieldClass : Node := Node.classN "C" [Node.field "f"]

/-- A class with exactly the two methods `m(a)` and `m(b)`. -/
def c3TwoMethodsClass : Node :=
  Node.classN "D"
    [Node.method 1 "m" [⟨"a", false⟩] (some []), Node.method 2 "m" [⟨"b", false⟩] (some [])]

/-- C3: `methodsHaveDistinctSignatures` requires every member of the class to be a
`Method`, so a class whose only member is a `Field` (and which therefore has no
clashing method pair) is still flagged — contradicting the claimed iff.  The second
conjunct shows the `m(a)`/`m(b)` class does produce exactly one
`methodsHaveDistinctSignatures` error on the class node (plus unrelated
`onlyLastParameterIsVarArg` errors on the two method children, see C6). -/
theorem methodsHaveDistinctSignatures_misfires :
    validate none c3FieldClass =
      Except.ok [Problem.mk Level.error "methodsHaveDistinctSignatures" c3FieldClass]
    ∧ validate none c3TwoMethodsClass =
      Except.ok [Problem.mk Level.error "methodsHaveDistinctSignatures" c3TwoMethodsClass,
        Problem.mk Level.error "onlyLastParameterIsVarArg"
          (Node.method 1 "m" [⟨"a", false⟩] (some [])),
        Problem.mk Level.error "onlyLastParameterIsVarArg"
          (Node.method 2 "m" [⟨"b", false⟩] (some []))] :=
  ⟨rfl, rfl⟩

/-- A named singleton used as an expression (its parent is not a `Package`). -/
def c4Singleton : Node := Node.singleton (some "s") []

/-- C4 counterexample: the claim says a singleton whose parent is not a `Package`
yields no `singletonIsNotUnnamed` error, but the condition of the rule is
`parent.kind === "Package" && name !== undefined`, which is false for any
non-package parent, so even a named singleton inside a `Program` is flagged. -/
theorem singleton_named_nonpackage_flagged :
    validate (some (Node.program "main" [c4Singleton])) c4Singleton =
      Except.ok [Problem.mk Level.error "singletonIsNotUnnamed" c4Singleton] := rfl

/-- C4 amended: `validate` yields a `singletonIsNotUnnamed` error on a singleton if
and only if it is not a named package member, i.e. unless its parent is a `Package`
and it has a name.  Package-level unnamed singletons are flagged as the claim says,
but so is every singleton in expression position, named or not. -/
theorem singletonIsNotUnnamed_iff (name : Option String) (p : Node) :
    yieldsProblem (validate (some p) (Node.singleton name [])) Level.error
        "singletonIsNotUnnamed" (Node.singleton name [])
      ↔ ¬(p.kind = NodeKind.Package ∧ name ≠ none) := by
  rw [show validate (some p) (Node.singleton name []) =
      Except.ok (collectProblems
        [problemOf Level.warning (nameIsCamelCaseCond name) (Node.singleton name [])
          "nameIsCamelCase",
         problemOf Level.error (decide (p.kind = NodeKind.Package) && decide (name ≠ none))
          (Node.singleton name []) "singletonIsNotUnnamed"] ++ []) from rfl,
    yieldsProblem_ok, List.append_nil, mem_collectProblems]
  simp only [List.mem_cons, List.not_mem_nil, or_false,
    eq_problemOf_warning_iff_false, eq_problemOf_error_iff, false_or]
  simp [Bool.and_eq_false_iff, not_and_or]

/-- A method `m(a)` with a single, non-varargs parameter. -/
def c6Method : Node := Node.method 1 "m" [⟨"a", false⟩] (some [])

/-- C6: the claim says a method with no varargs parameter yields no
`onlyLastParameterIsVarArg` error, but for `m(a)` JavaScript `findIndex` returns
`-1`, so the predicate compares `0` with the parameter count `1` and fails,
producing exactly this error. -/
theorem varargs_rule_fires_without_varargs :
    validate none c6Method =
      Except.ok [Problem.mk Level.error "onlyLastParameterIsVarArg" c6Method] := rfl

theorem validateList_replicate_literal (parent : Option Node) (k : Nat) :
    validateList parent (List.replicate k Node.literal) = Except.ok [] := by
  induction k with
  | zero => rfl
  | succ k ih => simp [List.replicate_succ, validateList, validate, checksFor, ih, Bind.bind,
      Except.bind, Pure.pure, Except.pure]

theorem validateList_replicate_catch (parent : Option Node) (k : Nat) :
    validateList parent (List.replicate k (Node.catchN [])) = Except.ok [] := by
  induction k with
  | zero => rfl
  | succ k ih => simp [List.replicate_succ, validateList, validate, checksFor, ih, Bind.bind,
      Except.bind, Pure.pure, Except.pure]

/-- A `Try` node with `nb` body sentences, `nc` catch clauses and `na` sentences in
the `always` block (sentences and catch bodies are plain literals, which carry no
validation rules of their own). -/
def simpleTry (nb nc na : Nat) : Node :=
  Node.tryN (List.replicate nb Node.literal) (List.replicate nc (Node.catchN []))
    (List.replicate na Node.literal)

/-- C7: `validate` yields a `hasCatchOrAlways` error on a `Try` node exactly when it
has no catch clauses and it is not the case that both the `always` block and the
body are non-empty; in particular `try { e } catch { } always { }` with one body
sentence, empty catches and an empty always block (nb = 1, nc = 0, na = 0) is
flagged. -/
theorem hasCatchOrAlways_iff (nb nc na : Nat) :
    yieldsProblem (validate none (simpleTry nb nc na)) Level.error "hasCatchOrAlways"
        (simpleTry nb nc na)
      ↔ (nc = 0 ∧ ¬(na ≠ 0 ∧ nb ≠ 0)) := by
  have hv : validate none (simpleTry nb nc na) =
      Except.ok (collectProblems
        [problemOf Level.error
          (hasCatchOrAlwaysCond (List.replicate nb Node.literal)
            (List.replicate nc (Node.catchN [])) (List.replicate na Node.literal))
          (simpleTry nb nc na) "hasCatchOrAlways"]) := by
    unfold simpleTry
    simp only [validate, checksFor, validateList_replicate_literal,
      validateList_replicate_catch, Bind.bind, Except.bind, Pure.pure, Except.pure,
      List.append_nil]
  rw [hv, yieldsProblem_ok]
  simp only [mem_collectProblems, List.mem_cons, List.not_mem_nil, or_false,
    eq_problemOf_error_iff]
  unfold hasCatchOrAlwaysCond
  simp [List.length_replicate, Bool.or_eq_false_iff, Bool.and_eq_false_iff, not_and_or,
    Decidable.not_not]

/-!
The runtime object model and the `game` / `Sound` natives of `src/wre/game.ts`.

Runtime objects live in a heap indexed by `Id`; each object carries its own id, its
module FQN, an attribute map from names to referent ids, and an optional typed
`innerValue`.  The interpreter itself is not part of the sources; following §4.6 of
the spec, `sendMessage(selector, receiver, ...args)` is modelled as pushing an
oracle-determined result id onto the current operand stack.
-/

/-- Runtime identifiers. -/
abbrev Id := Nat

/-- Well-known sentinel ids (sole instances of null, true, false and void). -/
def NULL_ID : Id := 0

/-- Sentinel id of the `true` instance. -/
def TRUE_ID : Id := 1

/-- Sentinel id of the `false` instance. -/
def FALSE_ID : Id := 2

/-- Sentinel id of the `void` instance. -/
def VOID_ID : Id := 3

/-- The typed `innerValue` of a runtime object. -/
inductive InnerValue where
  | num (value : Int)
  | str (value : String)
  | listV (elements : List Id)
deriving DecidableEq, Repr

/-- A runtime object: identity, module FQN, attribute map, optional inner value. -/
structure RuntimeObject where
  id : Id
  moduleFQN : String
  attributes : List (String × Id)
  innerValue : Option InnerValue
deriving DecidableEq, Repr

/-- Read an attribute of an object: the id it references, if present. -/
def RuntimeObject.getRaw (o : RuntimeObject) (key : String) : Option Id :=
  (o.attributes.find? (fun kv => decide (kv.1 = key))).map (fun kv => kv.2)

/-- Embeds `set(key, id)` on an object: overwrite the attribute binding. -/
def RuntimeObject.setRaw (o : RuntimeObject) (key : String) (v : Id) : RuntimeObject :=
  { o with attributes := (key, v) :: o.attributes.filter (fun kv => decide (kv.1 ≠ key)) }

/-- The evaluation state a native observes: the instance table (total over ids in
this model), the operand stack of the current frame, the allocator cursor, the ids of
the `wollok.game.game`, `wollok.io.io` and `wollok.gameMirror.gameMirror` singletons,
whether the AST of a module resolves a zero-argument `position` method
(`lookupMethod(message, 0)` runs on the environment, which is outside the sources),
and the `sendMessage` result oracle (see module docstring). -/
structure Evaluation where
  heap : Id → RuntimeObject
  operandStack : List Id
  nextId : Id
  gameId : Id
  ioId : Id
  mirrorId : Id
  positionResolvable : String → Bool
  sendResult : String → Id → List Id → Id

/-- Embeds `evaluation.instance(id)`. -/
def Evaluation.instanceOf (ev : Evaluation) (i : Id) : RuntimeObject := ev.heap i

/-- Mutate an attribute of the object with identity `oid`. -/
def Evaluation.setAttr (ev : Evaluation) (oid : Id) (key : String) (v : Id) : Evaluation :=
  { ev with heap := fun i => if i = oid then (ev.heap i).setRaw key v else ev.heap i }

/-- Mutate the `innerValue` of the object with identity `oid`. -/
def Evaluation.setInner (ev : Evaluation) (oid : Id) (iv : InnerValue) : Evaluation :=
  { ev with heap := fun i => if i = oid then { ev.heap i with innerValue := some iv } else ev.heap i }

/-- Embeds `evaluation.createInstance(fqn, innerValue?)`: allocate a fresh object. -/
def Evaluation.createInstance (ev : Evaluation) (fqn : String) (iv : Option InnerValue) :
    Id × Evaluation :=
  (ev.nextId,
   { ev with
     heap := fun i => if i = ev.nextId then ⟨ev.nextId, fqn, [], iv⟩ else ev.heap i,
     nextId := ev.nextId + 1 })

/-- Push onto the operand stack of the current frame. -/
def Evaluation.pushOperand (ev : Evaluation) (i : Id) : Evaluation :=
  { ev with operandStack := i :: ev.operandStack }

/-- Pop from the operand stack of the current frame. -/
def Evaluation.popOperand (ev : Evaluation) : Option Id × Evaluation :=
  match ev.operandStack with
  | [] => (none, ev)
  | x :: xs => (some x, { ev with operandStack := xs })

/-- The raw attribute id stored on the object with identity `oid`. -/
def Evaluation.rawAttr (ev : Evaluation) (oid : Id) (key : String) : Option Id :=
  (ev.heap oid).getRaw key

/-- Embeds `object.get(key)`: the referenced runtime object, if the attribute is
present. -/
def Evaluation.getAttr (ev : Evaluation) (oid : Id) (key : String) : Option RuntimeObject :=
  (ev.rawAttr oid key).map ev.heap

/-- Embeds `object.get(key)` evaluated on an object value rather than an id. -/
def objAttr (ev : Evaluation) (o : RuntimeObject) (key : String) : Option RuntimeObject :=
  (o.getRaw key).map ev.heap

/-- Embeds `newList(evaluation, ...elements)`. -/
def newList (ev : Evaluation) (elements : List Id) : Id × Evaluation :=
  ev.createInstance "wollok.lang.List" (some (InnerValue.listV elements))

/-- Embeds `newWString(s)(evaluation)`. -/
def newWString (s : String) (ev : Evaluation) : Id × Evaluation :=
  ev.createInstance "wollok.lang.String" (some (InnerValue.str s))

/-- Embeds `returnValue`: push a result id onto the operand stack of the current
frame. -/
def returnValue (ev : Evaluation) (i : Id) : Evaluation := ev.pushOperand i

/-- Embeds `returnVoid`: push `VOID_ID`. -/
def returnVoid (ev : Evaluation) : Evaluation := returnValue ev VOID_ID

/-- Embeds `toWBoolean`. -/
def toWBoolean (b : Bool) : Id := if b then TRUE_ID else FALSE_ID

/-- The error kinds natives raise (`TypeError`, `RangeError`, plain `Error`). -/
inductive RuntimeError where
  | typeError (message : String)
  | rangeError (message : String)
  | jsError (message : String)
deriving DecidableEq, Repr

/-- Result of running a native: either a final evaluation, or a thrown error
together with the evaluation as mutated up to the throw point. -/
inductive NativeResult where
  | ok (evaluation : Evaluation)
  | thrown (error : RuntimeError) (evaluation : Evaluation)

/-- The evaluation carried by a result. -/
def NativeResult.evaluation : NativeResult → Evaluation
  | .ok e => e
  | .thrown _ e => e

/-- Whether the native returned normally. -/
def NativeResult.isOk : NativeResult → Bool
  | .ok _ => true
  | .thrown _ _ => false

/-- Whether the native threw. -/
def NativeResult.isThrown : NativeResult → Bool
  | .ok _ => false
  | .thrown _ _ => true

/-- Modelled from the spec: the interpreter function `sendMessage` (the interpreter is not
among the sources).  Per §4.6 it drives evaluation of the message to completion and
leaves the result on the operand stack of the current frame; the result id is given by
the `sendResult` oracle. -/
def sendMessage (message : String) (receiver : Id) (params : List Id) (ev : Evaluation) :
    Evaluation :=
  ev.pushOperand (ev.sendResult message receiver params)

/-- Embeds `redirectTo(receiver, voidMessage)(message, ...params)`: re-send the message to
another receiver, then (when `voidMessage`) additionally push `VOID_ID`. -/
def redirectTo (receiver : Evaluation → Id) (voidMessage : Bool) (message : String)
    (params : List Id) (ev : Evaluation) : Evaluation :=
  let ev1 := sendMessage message (receiver ev) params ev
  if voidMessage then returnVoid ev1 else ev1

/-- The `wollok.gameMirror.gameMirror` receiver resolver. -/
def mirror (ev : Evaluation) : Id := ev.mirrorId

/-- The `wollok.io.io` receiver resolver. -/
def ioSingleton (ev : Evaluation) : Id := ev.ioId

/-- Embeds `addToInnerCollection(wObject, element, fieldName)`: create the list when the
field is absent, assert it is a collection, reject duplicate ids with a `TypeError`
carrying the module FQN of the element, else append the id of the element. -/
def addToInnerCollection (wId elemId : Id) (fieldName : String) (ev : Evaluation) :
    NativeResult :=
  let ev1 :=
    match ev.rawAttr wId fieldName with
    | some _ => ev
    | none => (newList ev []).2.setAttr wId fieldName (newList ev []).1
  match ev1.rawAttr wId fieldName with
  | none => NativeResult.thrown (RuntimeError.typeError "Collection") ev1
  | some lid =>
    match (ev1.heap lid).innerValue with
    | some (InnerValue.listV elements) =>
      if elemId ∈ elements then
        NativeResult.thrown (RuntimeError.typeError (ev1.instanceOf elemId).moduleFQN) ev1
      else NativeResult.ok (ev1.setInner lid (InnerValue.listV (elements ++ [elemId])))
    | _ => NativeResult.thrown (RuntimeError.typeError "Collection") ev1

/-- Embeds `removeFromInnerCollection(wObject, elementToRemove, fieldName)`: when the
field exists, assert it is a collection and filter the id of the element out. -/
def removeFromInnerCollection (wId elemId : Id) (fieldName : String) (ev : Evaluation) :
    NativeResult :=
  match ev.rawAttr wId fieldName with
  | none => NativeResult.ok ev
  | some lid =>
    match (ev.heap lid).innerValue with
    | some (InnerValue.listV elements) =>
      NativeResult.ok (ev.setInner lid (InnerValue.listV
        (elements.filter (fun i => decide (i ≠ elemId)))))
    | _ => NativeResult.thrown (RuntimeError.typeError "Collection") ev

/-- Embeds `getPosition(id)(evaluation)`: the `position` field of the visual when present, else
the result of sending the `position` selector and popping it off the stack. -/
def getPosition (vid : Id) (ev : Evaluation) : RuntimeObject × Evaluation :=
  match ev.getAttr vid "position" with
  | some position => (position, ev)
  | none =>
    let ev1 := sendMessage "position" vid [] ev
    match ev1.popOperand with
    | (some rid, ev2) => (ev2.instanceOf rid, ev2)
    | (none, ev2) => (ev2.instanceOf NULL_ID, ev2)

/-- The id of the position object `getPosition` returns for a visual. -/
def positionOfId (ev : Evaluation) (vid : Id) : Id :=
  match ev.rawAttr vid "position" with
  | some p => p
  | none => ev.sendResult "position" vid []

/-- Embeds `samePosition(evaluation, position)(id)`: both the `x` and the `y` attributes of
the two position objects reference identical instances. -/
def samePosition (ev : Evaluation) (position : RuntimeObject) (vid : Id) : Bool :=
  let visualPosition := (getPosition vid ev).1
  decide (objAttr ev position "x" = objAttr ev visualPosition "x")
    && decide (objAttr ev position "y" = objAttr ev visualPosition "y")

namespace game

/-- Embeds `game.addVisual(visual)`: require `visual` non-null and its module to resolve a
zero-argument `position` method, append to `self.visuals`, push `VOID_ID`. -/
def addVisual (selfId visualId : Id) (ev : Evaluation) : NativeResult :=
  if visualId = NULL_ID then NativeResult.thrown (RuntimeError.typeError "visual") ev
  else if !(ev.positionResolvable (ev.instanceOf visualId).moduleFQN) then
    NativeResult.thrown (RuntimeError.typeError "position") ev
  else
    match addToInnerCollection selfId visualId "visuals" ev with
    | NativeResult.ok ev' => NativeResult.ok (returnVoid ev')
    | r => r

/-- Embeds `game.addVisualIn(visual, position)`: require both arguments non-null, write the
position into the visual, then append to `self.visuals` and push `VOID_ID`. -/
def addVisualIn (selfId visualId positionId : Id) (ev : Evaluation) : NativeResult :=
  if visualId = NULL_ID then NativeResult.thrown (RuntimeError.typeError "visual") ev
  else if positionId = NULL_ID then NativeResult.thrown (RuntimeError.typeError "position") ev
  else
    let ev1 := ev.setAttr visualId "position" positionId
    match addToInnerCollection selfId visualId "visuals" ev1 with
    | NativeResult.ok ev' => NativeResult.ok (returnVoid ev')
    | r => r

/-- Embeds `game.addVisualCharacter(visual)`: forward to the `gameMirror` singleton. -/
def addVisualCharacter (visualId : Id) (ev : Evaluation) : Evaluation :=
  redirectTo mirror true "addVisualCharacter" [visualId] ev

/-- Embeds `game.doStart(_isRepl)`: set `self.running` to `TRUE_ID`. -/
def doStart (selfId : Id) (ev : Evaluation) : NativeResult :=
  NativeResult.ok (returnVoid (ev.setAttr selfId "running" TRUE_ID))

/-- Embeds `game.stop()`: set `self.running` to `FALSE_ID`. -/
def stop (selfId : Id) (ev : Evaluation) : NativeResult :=
  NativeResult.ok (returnVoid (ev.setAttr selfId "running" FALSE_ID))

/-- Embeds `game.say(visual, message)`: fetch `currentTime` from `io`, then set
`visual.message` and `visual.messageTime` (each `set` pushes `VOID_ID`). -/
def say (visualId messageId : Id) (ev : Evaluation) : NativeResult :=
  let ev1 := sendMessage "currentTime" (ioSingleton ev) [] ev
  match ev1.popOperand with
  | (some tid, ev2) =>
    match (ev2.heap tid).innerValue with
    | some (InnerValue.num currentTime) =>
      let pr := ev2.createInstance "wollok.lang.Number" (some (InnerValue.num (currentTime + 2 * 1000)))
      let ev4 := returnVoid (pr.2.setAttr visualId "message" messageId)
      let ev5 := returnVoid (ev4.setAttr visualId "messageTime" pr.1)
      NativeResult.ok ev5
    | _ => NativeResult.thrown (RuntimeError.typeError "Number") ev2
  | (none, ev2) => NativeResult.thrown (RuntimeError.typeError "pop on empty stack") ev2

/-- Embeds `game.getObjectsIn(position)`: the visuals colocated with the given
position. -/
def getObjectsIn (selfId positionId : Id) (ev : Evaluation) : NativeResult :=
  match ev.rawAttr selfId "visuals" with
  | none => NativeResult.ok (returnValue (newList ev []).2 (newList ev []).1)
  | some vid =>
    match (ev.heap vid).innerValue with
    | some (InnerValue.listV elements) =>
      let pr := newList ev (elements.filter (samePosition ev (ev.instanceOf positionId)))
      NativeResult.ok (returnValue pr.2 pr.1)
    | _ => NativeResult.thrown (RuntimeError.typeError "Collection") ev

/-- Embeds `game.colliders(visual)`: the other visuals sharing the position of
`visual`. -/
def colliders (selfId visualId : Id) (ev : Evaluation) : NativeResult :=
  if visualId = NULL_ID then NativeResult.thrown (RuntimeError.typeError "visual") ev
  else
    match ev.rawAttr selfId "visuals" with
    | none => NativeResult.ok (returnValue (newList ev []).2 (newList ev []).1)
    | some vid =>
      match (ev.heap vid).innerValue with
      | some (InnerValue.listV elements) =>
        let pe := getPosition visualId ev
        let pr := newList pe.2
          ((elements.filter (samePosition pe.2 pe.1)).filter (fun i => decide (i ≠ visualId)))
        NativeResult.ok (returnValue pr.2 pr.1)
      | _ => NativeResult.thrown (RuntimeError.typeError "Collection") ev

end game

namespace Sound

/-- Embeds `Sound.play()`: require the game to be running, set `status` to a fresh
`"played"` string, then add `self` to `game.sounds` and push `VOID_ID`. -/
def play (selfId : Id) (ev : Evaluation) : NativeResult :=
  if ((ev.getAttr ev.gameId "running").map RuntimeObject.id) ≠ some TRUE_ID then
    NativeResult.thrown (RuntimeError.jsError "You cannot play a sound if game has not started") ev
  else
    let pr := newWString "played" ev
    let ev2 := pr.2.setAttr selfId "status" pr.1
    match addToInnerCollection ev2.gameId selfId "sounds" ev2 with
    | NativeResult.ok ev3 => NativeResult.ok (returnVoid ev3)
    | r => r

/-- Embeds `Sound.stop()`: require `status` to be `"played"`, set it to `"stopped"`, remove
`self` from `game.sounds` and push `VOID_ID`. -/
def stop (selfId : Id) (ev : Evaluation) : NativeResult :=
  if ((ev.getAttr selfId "status").bind RuntimeObject.innerValue) ≠ some (InnerValue.str "played") then
    NativeResult.thrown (RuntimeError.jsError "You cannot stop a sound that is not played") ev
  else
    let pr := newWString "stopped" ev
    let ev2 := pr.2.setAttr selfId "status" pr.1
    match removeFromInnerCollection ev2.gameId selfId "sounds" ev2 with
    | NativeResult.ok ev3 => NativeResult.ok (returnVoid ev3)
    | r => r

/-- Embeds `Sound.pause()`: require `status` to be `"played"`, set it to `"paused"`. -/
def pause (selfId : Id) (ev : Evaluation) : NativeResult :=
  if ((ev.getAttr selfId "status").bind RuntimeObject.innerValue) ≠ some (InnerValue.str "played") then
    NativeResult.thrown (RuntimeError.jsError "You cannot pause a sound that is not played") ev
  else
    let pr := newWString "paused" ev
    NativeResult.ok (returnVoid (pr.2.setAttr selfId "status" pr.1))

/-- Embeds `Sound.resume()`: require `status` to be `"paused"`, set it to `"played"`. -/
def resume (selfId : Id) (ev : Evaluation) : NativeResult :=
  if ((ev.getAttr selfId "status").bind RuntimeObject.innerValue) ≠ some (InnerValue.str "paused") then
    NativeResult.thrown (RuntimeError.jsError "You cannot resume a sound that is not paused") ev
  else
    let pr := newWString "played" ev
    NativeResult.ok (returnVoid (pr.2.setAttr selfId "status" pr.1))

end Sound

/-- The string held by the `status` attribute of a sound, if any. -/
def statusStr (ev : Evaluation) (i : Id) : Option String :=
  match (ev.getAttr i "status").bind RuntimeObject.innerValue with
  | some (InnerValue.str s) => some s
  | _ => none

/-- The id stored in the `running` attribute of the game (as `?.id`). -/
def runningOf (ev : Evaluation) : Option Id :=
  (ev.getAttr ev.gameId "running").map RuntimeObject.id

/-- The elements of a list-valued attribute (empty when absent or ill-typed). -/
def innerListAt (ev : Evaluation) (oid : Id) (fieldName : String) : List Id :=
  match ev.rawAttr oid fieldName with
  | some lid =>
    match (ev.heap lid).innerValue with
    | some (InnerValue.listV l) => l
    | _ => []
  | none => []

/-- The contents of `game.sounds`. -/
def soundsElems (ev : Evaluation) : List Id := innerListAt ev ev.gameId "sounds"

/-- The contents of `self.visuals`. -/
def visualsElems (ev : Evaluation) (selfId : Id) : List Id := innerListAt ev selfId "visuals"

/-- The elements of the list a native left on top of the operand stack. -/
def resultElems (r : NativeResult) : List Id :=
  match r with
  | NativeResult.ok ev =>
    match ev.operandStack with
    | i :: _ =>
      match (ev.heap i).innerValue with
      | some (InnerValue.listV l) => l
      | _ => []
    | [] => []
  | NativeResult.thrown _ _ => []

/-- Heap well-formedness: every object records its own identity. -/
def HeapWF (ev : Evaluation) : Prop := ∀ i, (ev.heap i).id = i

/-- The list-valued field of `ownerId`, when present, references an already
allocated proper list instance. -/
def innerListTyped (ev : Evaluation) (ownerId : Id) (fieldName : String) : Prop :=
  ∀ lid, ev.rawAttr ownerId fieldName = some lid →
    lid < ev.nextId ∧ ∃ l, (ev.heap lid).innerValue = some (InnerValue.listV l)

theorem find?_filter_ne (l : List (String × Id)) (k k2 : String) (h : k2 ≠ k) :
    (l.filter (fun kv => decide (kv.1 ≠ k))).find? (fun kv => decide (kv.1 = k2)) =
      l.find? (fun kv => decide (kv.1 = k2)) := by
  induction l with
  | nil => rfl
  | cons x xs ih =>
    by_cases hx : x.1 = k
    · have hx2 : ¬(x.1 = k2) := fun hc => h (hc ▸ hx)
      rw [List.filter_cons_of_neg (by simpa using hx), ih,
        List.find?_cons_of_neg _ (by simpa using hx2)]
    · rw [List.filter_cons_of_pos (by simpa using hx)]
      by_cases hx2 : x.1 = k2
      · rw [List.find?_cons_of_pos _ (by simpa using hx2),
          List.find?_cons_of_pos _ (by simpa using hx2)]
      · rw [List.find?_cons_of_neg _ (by simpa using hx2),
          List.find?_cons_of_neg _ (by simpa using hx2), ih]

@[simp] theorem setRaw_id (o : RuntimeObject) (k : String) (v : Id) :
    (o.setRaw k v).id = o.id := rfl

@[simp] theorem setRaw_moduleFQN (o : RuntimeObject) (k : String) (v : Id) :
    (o.setRaw k v).moduleFQN = o.moduleFQN := rfl

@[simp] theorem setRaw_innerValue (o : RuntimeObject) (k : String) (v : Id) :
    (o.setRaw k v).innerValue = o.innerValue := rfl

@[simp] theorem getRaw_setRaw_self (o : RuntimeObject) (k : String) (v : Id) :
    (o.setRaw k v).getRaw k = some v := by
  simp [RuntimeObject.setRaw, RuntimeObject.getRaw, List.find?_cons]

theorem getRaw_setRaw_ne (o : RuntimeObject) (k k2 : String) (v : Id) (h : k2 ≠ k) :
    (o.setRaw k v).getRaw k2 = o.getRaw k2 := by
  unfold RuntimeObject.setRaw RuntimeObject.getRaw
  rw [List.find?_cons_of_neg _ (by simpa using Ne.symm h), find?_filter_ne _ _ _ h]

@[simp] theorem setAttr_operandStack (ev : Evaluation) (oid : Id) (k : String) (v : Id) :
    (ev.setAttr oid k v).operandStack = ev.operandStack := rfl

@[simp] theorem setAttr_nextId (ev : Evaluation) (oid : Id) (k : String) (v : Id) :
    (ev.setAttr oid k v).nextId = ev.nextId := rfl

@[simp] theorem setAttr_gameId (ev : Evaluation) (oid : Id) (k : String) (v : Id) :
    (ev.setAttr oid k v).gameId = ev.gameId := rfl

@[simp] theorem setInner_operandStack (ev : Evaluation) (oid : Id) (iv : InnerValue) :
    (ev.setInner oid iv).operandStack = ev.operandStack := rfl

@[simp] theorem setInner_nextId (ev : Evaluation) (oid : Id) (iv : InnerValue) :
    (ev.setInner oid iv).nextId = ev.nextId := rfl

@[simp] theorem setInner_gameId (ev : Evaluation) (oid : Id) (iv : InnerValue) :
    (ev.setInner oid iv).gameId = ev.gameId := rfl

@[simp] theorem createInstance_fst (ev : Evaluation) (f : String) (iv : Option InnerValue) :
    (ev.createInstance f iv).1 = ev.nextId := rfl

@[simp] theorem createInstance_nextId (ev : Evaluation) (f : String) (iv : Option InnerValue) :
    (ev.createInstance f iv).2.nextId = ev.nextId + 1 := rfl

@[simp] theorem createInstance_gameId (ev : Evaluation) (f : String) (iv : Option InnerValue) :
    (ev.createInstance f iv).2.gameId = ev.gameId := rfl

@[simp] theorem createInstance_operandStack (ev : Evaluation) (f : String) (iv : Option InnerValue) :
    (ev.createInstance f iv).2.operandStack = ev.operandStack := rfl

@[simp] theorem pushOperand_heap (ev : Evaluation) (j : Id) :
    (ev.pushOperand j).heap = ev.heap := rfl

@[simp] theorem pushOperand_gameId (ev : Evaluation) (j : Id) :
    (ev.pushOperand j).gameId = ev.gameId := rfl

@[simp] theorem pushOperand_operandStack (ev : Evaluation) (j : Id) :
    (ev.pushOperand j).operandStack = j :: ev.operandStack := rfl

theorem rawAttr_setAttr_self (ev : Evaluation) (oid : Id) (k : String) (v : Id) :
    (ev.setAttr oid k v).rawAttr oid k = some v := by
  simp [Evaluation.rawAttr, Evaluation.setAttr]

theorem rawAttr_setAttr_ne_obj {i oid : Id} (h : i ≠ oid) (ev : Evaluation) (k k2 : String)
    (v : Id) : (ev.setAttr oid k v).rawAttr i k2 = ev.rawAttr i k2 := by
  simp [Evaluation.rawAttr, Evaluation.setAttr, h]

theorem rawAttr_setAttr_ne_key {k k2 : String} (h : k2 ≠ k) (ev : Evaluation) (i oid : Id)
    (v : Id) : (ev.setAttr oid k v).rawAttr i k2 = ev.rawAttr i k2 := by
  by_cases hi : i = oid
  · subst hi
    simp [Evaluation.rawAttr, Evaluation.setAttr, getRaw_setRaw_ne _ _ _ _ h]
  · exact rawAttr_setAttr_ne_obj hi ev k k2 v

@[simp] theorem rawAttr_setInner (ev : Evaluation) (oid : Id) (iv : InnerValue) (i : Id)
    (k : String) : (ev.setInner oid iv).rawAttr i k = ev.rawAttr i k := by
  by_cases hi : i = oid <;>
    simp [Evaluation.rawAttr, Evaluation.setInner, RuntimeObject.getRaw, hi]

theorem rawAttr_createInstance_ne {i : Id} (ev : Evaluation) (f : String)
    (iv : Option InnerValue) (h : i ≠ ev.nextId) (k : String) :
    (ev.createInstance f iv).2.rawAttr i k = ev.rawAttr i k := by
  simp [Evaluation.rawAttr, Evaluation.createInstance, h]

@[simp] theorem rawAttr_pushOperand (ev : Evaluation) (j i : Id) (k : String) :
    (ev.pushOperand j).rawAttr i k = ev.rawAttr i k := rfl

theorem inner_setAttr (ev : Evaluation) (oid : Id) (k : String) (v : Id) (i : Id) :
    ((ev.setAttr oid k v).heap i).innerValue = (ev.heap i).innerValue := by
  by_cases hi : i = oid <;> simp [Evaluation.setAttr, hi]

theorem inner_setInner_self (ev : Evaluation) (oid : Id) (iv : InnerValue) :
    ((ev.setInner oid iv).heap oid).innerValue = some iv := by
  simp [Evaluation.setInner]

theorem inner_setInner_ne {i oid : Id} (h : i ≠ oid) (ev : Evaluation) (iv : InnerValue) :
    ((ev.setInner oid iv).heap i).innerValue = (ev.heap i).innerValue := by
  simp [Evaluation.setInner, h]

theorem inner_createInstance_ne {i : Id} (ev : Evaluation) (f : String) (iv : Option InnerValue)
    (h : i ≠ ev.nextId) : ((ev.createInstance f iv).2.heap i).innerValue = (ev.heap i).innerValue := by
  simp [Evaluation.createInstance, h]

theorem inner_createInstance_self (ev : Evaluation) (f : String) (iv : Option InnerValue) :
    ((ev.createInstance f iv).2.heap ev.nextId).innerValue = iv := by
  simp [Evaluation.createInstance]

theorem fqn_setAttr (ev : Evaluation) (oid : Id) (k : String) (v : Id) (i : Id) :
    ((ev.setAttr oid k v).heap i).moduleFQN = (ev.heap i).moduleFQN := by
  by_cases hi : i = oid <;> simp [Evaluation.setAttr, hi]

theorem fqn_createInstance_ne {i : Id} (ev : Evaluation) (f : String) (iv : Option InnerValue)
    (h : i ≠ ev.nextId) : ((ev.createInstance f iv).2.heap i).moduleFQN = (ev.heap i).moduleFQN := by
  simp [Evaluation.createInstance, h]

theorem statusStr_eq_some_iff (ev : Evaluation) (i : Id) (s : String) :
    statusStr ev i = some s ↔
      (ev.getAttr i "status").bind RuntimeObject.innerValue = some (InnerValue.str s) := by
  unfold statusStr
  cases h : (ev.getAttr i "status").bind RuntimeObject.innerValue with
  | none => simp
  | some iv => cases iv <;> simp

@[simp] theorem statusStr_pushOperand (ev : Evaluation) (j i : Id) :
    statusStr (ev.pushOperand j) i = statusStr ev i := rfl

@[simp] theorem soundsElems_pushOperand (ev : Evaluation) (j : Id) :
    soundsElems (ev.pushOperand j) = soundsElems ev := rfl

@[simp] theorem visualsElems_pushOperand (ev : Evaluation) (j i : Id) :
    visualsElems (ev.pushOperand j) i = visualsElems ev i := rfl

theorem heap_inj (ev : Evaluation) (hwf : HeapWF ev) {a b : Id} (h : ev.heap a = ev.heap b) :
    a = b := by
  have ha := hwf a
  rw [h, hwf b] at ha
  exact ha.symm

theorem objAttr_eq_iff (ev : Evaluation) (hwf : HeapWF ev) (o o2 : RuntimeObject) (k : String) :
    objAttr ev o k = objAttr ev o2 k ↔ o.getRaw k = o2.getRaw k := by
  unfold objAttr
  cases h1 : o.getRaw k with
  | none => cases h2 : o2.getRaw k with
    | none => simp
    | some b => simp
  | some a => cases h2 : o2.getRaw k with
    | none => simp
    | some b =>
      constructor
      · intro h
        have h2 : ev.heap a = ev.heap b := by simpa using h
        exact congrArg some (heap_inj ev hwf h2)
      · intro h
        have h2 : a = b := by simpa using h
        rw [h2]

theorem addToInnerCollection_present_mem (wId elemId : Id) (fieldName : String)
    (ev : Evaluation) {lid : Id} (hraw : ev.rawAttr wId fieldName = some lid)
    {l : List Id} (hinner : (ev.heap lid).innerValue = some (InnerValue.listV l))
    (hmem : elemId ∈ l) :
    addToInnerCollection wId elemId fieldName ev =
      NativeResult.thrown (RuntimeError.typeError (ev.instanceOf elemId).moduleFQN) ev := by
  simp [addToInnerCollection, hraw, hinner, hmem]

theorem addToInnerCollection_present_notmem (wId elemId : Id) (fieldName : String)
    (ev : Evaluation) {lid : Id} (hraw : ev.rawAttr wId fieldName = some lid)
    {l : List Id} (hinner : (ev.heap lid).innerValue = some (InnerValue.listV l))
    (hmem : elemId ∉ l) :
    addToInnerCollection wId elemId fieldName ev =
      NativeResult.ok (ev.setInner lid (InnerValue.listV (l ++ [elemId]))) := by
  simp [addToInnerCollection, hraw, hinner, hmem]

theorem addToInnerCollection_absent (wId elemId : Id) (fieldName : String) (ev : Evaluation)
    (hraw : ev.rawAttr wId fieldName = none) (hw : wId < ev.nextId) :
    addToInnerCollection wId elemId fieldName ev =
      NativeResult.ok (((newList ev []).2.setAttr wId fieldName ev.nextId).setInner ev.nextId
        (InnerValue.listV [elemId])) := by
  have hne : ev.nextId ≠ wId := fun hc => absurd (hc ▸ hw) (lt_irrefl _)
  have h1 : ((newList ev []).2.setAttr wId fieldName ev.nextId).rawAttr wId fieldName
      = some ev.nextId := rawAttr_setAttr_self _ _ _ _
  have h2 : (((newList ev []).2.setAttr wId fieldName ev.nextId).heap ev.nextId).innerValue
      = some (InnerValue.listV []) := by
    rw [show ((newList ev []).2.setAttr wId fieldName ev.nextId).heap ev.nextId
        = (newList ev []).2.heap ev.nextId by simp [Evaluation.setAttr, hne]]
    exact inner_createInstance_self ev _ _
  simp only [addToInnerCollection, hraw]
  rw [show (newList ev []).1 = ev.nextId from rfl]
  simp [h1, h2]

theorem getPosition_snd (vid : Id) (ev : Evaluation) : (getPosition vid ev).2 = ev := by
  unfold getPosition
  cases h : ev.getAttr vid "position" with
  | some p => rfl
  | none => rfl

theorem getPosition_fst (vid : Id) (ev : Evaluation) :
    (getPosition vid ev).1 = ev.heap (positionOfId ev vid) := by
  unfold getPosition positionOfId
  cases h : ev.rawAttr vid "position" with
  | some p =>
    simp [Evaluation.getAttr, h]
  | none =>
    simp [Evaluation.getAttr, h, sendMessage, Evaluation.pushOperand, Evaluation.popOperand,
      Evaluation.instanceOf]

/-- The object every otherwise unconstrained id maps to in concrete test heaps. -/
def blankObject (i : Id) : RuntimeObject := ⟨i, "wollok.lang.Object", [], none⟩

/-- A concrete evaluation for exercising the bridge: id 5 holds a `Number` instance
(what the `currentTime` send returns per the oracle) and the operand stack is empty. -/
def c1Ev : Evaluation :=
  { heap := fun i =>
      if i = 5 then ⟨5, "wollok.lang.Number", [], some (InnerValue.num 100)⟩ else blankObject i,
    operandStack := [], nextId := 20, gameId := 10, ioId := 11, mirrorId := 12,
    positionResolvable := fun _ => true, sendResult := fun _ _ _ => 5 }

/-- C1: the claim says every `game`/`Sound` native pushes exactly one id, leaving the
operand stack exactly one entry deeper.  The `redirectTo`-based natives
(`addVisualCharacter` here) leave the result of the forwarded message on the stack and
then push `VOID_ID` on top of it, and `say` returns through two `set` steps that
each push `VOID_ID` — both leave the stack two entries deeper.  Simple natives such
as `doStart` do satisfy the +1 contract. -/
theorem native_bridge_push_discipline_violated :
    (game.addVisualCharacter 6 c1Ev).operandStack.length = c1Ev.operandStack.length + 2
    ∧ (game.say 6 7 c1Ev).isOk = true
    ∧ (game.say 6 7 c1Ev).evaluation.operandStack.length = c1Ev.operandStack.length + 2
    ∧ (game.doStart 10 c1Ev).evaluation.operandStack.length = c1Ev.operandStack.length + 1 := by
  decide

/-- C10: `game.addVisualIn` writes the new position into the `position` attribute of
the visual before the duplicate check, so when it throws a `TypeError` because the
id of the visual is already in `self.visuals`, the visuals list is unchanged (and
nothing was pushed) but the `position` attribute of the visual has already been
updated to the new position. -/
theorem addVisualIn_not_atomic (ev : Evaluation) (selfId visualId positionId : Id)
    (h1 : visualId ≠ NULL_ID) (h2 : positionId ≠ NULL_ID)
    (ht : innerListTyped ev selfId "visuals")
    (hdup : visualId ∈ visualsElems ev selfId) :
    ∃ m ev2,
      game.addVisualIn selfId visualId positionId ev =
        NativeResult.thrown (RuntimeError.typeError m) ev2
      ∧ visualsElems ev2 selfId = visualsElems ev selfId
      ∧ ev2.rawAttr visualId "position" = some positionId
      ∧ ev2.operandStack = ev.operandStack := by
  cases hraw : ev.rawAttr selfId "visuals" with
  | none =>
    simp [visualsElems, innerListAt, hraw] at hdup
  | some lid =>
    obtain ⟨hlt, l, hinner⟩ := ht lid hraw
    have hl : visualsElems ev selfId = l := by
      simp [visualsElems, innerListAt, hraw, hinner]
    rw [hl] at hdup
    have hraw1 : (ev.setAttr visualId "position" positionId).rawAttr selfId "visuals"
        = some lid := by
      rw [rawAttr_setAttr_ne_key (show ("visuals" : String) ≠ "position" by decide), hraw]
    have hinner1 : ((ev.setAttr visualId "position" positionId).heap lid).innerValue
        = some (InnerValue.listV l) := by
      rw [inner_setAttr]
      exact hinner
    have hadd := addToInnerCollection_present_mem selfId visualId "visuals"
      (ev.setAttr visualId "position" positionId) hraw1 hinner1 hdup
    refine ⟨((ev.setAttr visualId "position" positionId).instanceOf visualId).moduleFQN,
      ev.setAttr visualId "position" positionId, ?_, ?_, ?_, ?_⟩
    · simp [game.addVisualIn, h1, h2, hadd]
    · rw [hl]
      simp [visualsElems, innerListAt, hraw1, hinner1]
    · exact rawAttr_setAttr_self ev visualId "position" positionId
    · rfl

/-- A concrete evaluation with the game at id 10 whose `visuals` list (at id 12)
already contains the visual id 11. -/
def c10Ev : Evaluation :=
  { heap := fun i =>
      if i = 10 then ⟨10, "wollok.game.game", [("visuals", 12)], none⟩
      else if i = 12 then ⟨12, "wollok.lang.List", [], some (InnerValue.listV [11])⟩
      else blankObject i,
    operandStack := [], nextId := 20, gameId := 10, ioId := 4, mirrorId := 5,
    positionResolvable := fun _ => true, sendResult := fun _ _ _ => 0 }

/-- C10 witness: the non-atomicity theorem applied to a concrete duplicate
insertion. -/
theorem addVisualIn_not_atomic_witness :
    ∃ m ev2,
      game.addVisualIn 10 11 13 c10Ev = NativeResult.thrown (RuntimeError.typeError m) ev2
      ∧ visualsElems ev2 10 = visualsElems c10Ev 10
      ∧ ev2.rawAttr 11 "position" = some 13
      ∧ ev2.operandStack = c10Ev.operandStack :=
  addVisualIn_not_atomic c10Ev 10 11 13 (by decide) (by decide)
    (by
      intro lid hl
      rw [show c10Ev.rawAttr 10 "visuals" = some 12 from rfl] at hl
      injection hl with h
      subst h
      exact ⟨by decide, ⟨[11], rfl⟩⟩)
    (by decide)

/-- C8: `game.addVisual(visual)` throws (always a `TypeError`) exactly when the
visual is the null sentinel, or its module does not resolve a zero-argument
`position` method, or its id is already in `self.visuals`; otherwise it appends the
id of the visual to `self.visuals` (creating the list when the attribute is absent) and
pushes `VOID_ID`.  The hypotheses say `self` is an allocated object and its
`visuals` attribute, when present, holds a proper list. -/
theorem addVisual_spec (ev : Evaluation) (selfId visualId : Id)
    (hself : selfId < ev.nextId)
    (ht : innerListTyped ev selfId "visuals") :
    ((∃ e ev2, game.addVisual selfId visualId ev = NativeResult.thrown e ev2) ↔
      (visualId = NULL_ID
        ∨ ev.positionResolvable (ev.instanceOf visualId).moduleFQN = false
        ∨ visualId ∈ visualsElems ev selfId))
    ∧ (∀ e ev2, game.addVisual selfId visualId ev = NativeResult.thrown e ev2 →
        ∃ m, e = RuntimeError.typeError m)
    ∧ ((visualId ≠ NULL_ID ∧ ev.positionResolvable (ev.instanceOf visualId).moduleFQN = true
          ∧ visualId ∉ visualsElems ev selfId) →
        ∃ ev2, game.addVisual selfId visualId ev = NativeResult.ok ev2
          ∧ visualsElems ev2 selfId = visualsElems ev selfId ++ [visualId]
          ∧ ev2.operandStack = VOID_ID :: ev.operandStack) := by
  by_cases hA : visualId = NULL_ID
  · have hres : game.addVisual selfId visualId ev =
        NativeResult.thrown (RuntimeError.typeError "visual") ev := by
      simp [game.addVisual, hA]
    refine ⟨⟨fun _ => Or.inl hA, fun _ => ⟨_, _, hres⟩⟩, ?_, ?_⟩
    · intro e ev2 h
      rw [hres] at h
      injection h with h1 h2
      exact ⟨"visual", h1.symm⟩
    · rintro ⟨hv, _, _⟩
      exact absurd hA hv
  · by_cases hB : ev.positionResolvable (ev.instanceOf visualId).moduleFQN = true
    · cases hraw : ev.rawAttr selfId "visuals" with
      | none =>
        have hE : visualsElems ev selfId = [] := by simp [visualsElems, innerListAt, hraw]
        have hadd := addToInnerCollection_absent selfId visualId "visuals" ev hraw hself
        have hres : game.addVisual selfId visualId ev =
            NativeResult.ok (returnVoid (((newList ev []).2.setAttr selfId "visuals"
              ev.nextId).setInner ev.nextId (InnerValue.listV [visualId]))) := by
          simp [game.addVisual, hA, hB, hadd]
        refine ⟨⟨?_, ?_⟩, ?_, ?_⟩
        · rintro ⟨e, ev2, h⟩
          rw [hres] at h
          exact absurd h (by simp)
        · rintro (h | h | h)
          · exact absurd h hA
          · rw [hB] at h
            exact absurd h (by simp)
          · rw [hE] at h
            exact absurd h (List.not_mem_nil _)
        · intro e ev2 h
          rw [hres] at h
          exact absurd h (by simp)
        · intro _
          refine ⟨_, hres, ?_, ?_⟩
          · rw [hE]
            simp [visualsElems, innerListAt, returnVoid, returnValue,
              rawAttr_setInner, rawAttr_setAttr_self, inner_setInner_self]
          · simp [returnVoid, returnValue, newList]
      | some lid =>
        obtain ⟨hlt, l, hinner⟩ := ht lid hraw
        have hE : visualsElems ev selfId = l := by
          simp [visualsElems, innerListAt, hraw, hinner]
        by_cases hmem : visualId ∈ l
        · have hadd := addToInnerCollection_present_mem selfId visualId "visuals" ev hraw
            hinner hmem
          have hres : game.addVisual selfId visualId ev =
              NativeResult.thrown
                (RuntimeError.typeError (ev.instanceOf visualId).moduleFQN) ev := by
            simp [game.addVisual, hA, hB, hadd]
          refine ⟨⟨fun _ => Or.inr (Or.inr (by rw [hE]; exact hmem)), fun _ => ⟨_, _, hres⟩⟩,
            ?_, ?_⟩
          · intro e ev2 h
            rw [hres] at h
            injection h with h1 h2
            exact ⟨_, h1.symm⟩
          · rintro ⟨_, _, hv⟩
            rw [hE] at hv
            exact absurd hmem hv
        · have hadd := addToInnerCollection_present_notmem selfId visualId "visuals" ev hraw
            hinner hmem
          have hres : game.addVisual selfId visualId ev =
              NativeResult.ok
                (returnVoid (ev.setInner lid (InnerValue.listV (l ++ [visualId])))) := by
            simp [game.addVisual, hA, hB, hadd]
          refine ⟨⟨?_, ?_⟩, ?_, ?_⟩
          · rintro ⟨e, ev2, h⟩
            rw [hres] at h
            exact absurd h (by simp)
          · rintro (h | h | h)
            · exact absurd h hA
            · rw [hB] at h
              exact absurd h (by simp)
            · rw [hE] at h
              exact absurd h hmem
          · intro e ev2 h
            rw [hres] at h
            exact absurd h (by simp)
          · intro _
            refine ⟨_, hres, ?_, ?_⟩
            · rw [hE]
              simp [visualsElems, innerListAt, returnVoid, returnValue, rawAttr_setInner,
                hraw, inner_setInner_self]
            · simp [returnVoid, returnValue]
    · have hB2 : ev.positionResolvable (ev.instanceOf visualId).moduleFQN = false := by
        simpa using hB
      have hres : game.addVisual selfId visualId ev =
          NativeResult.thrown (RuntimeError.typeError "position") ev := by
        simp [game.addVisual, hA, hB2]
      refine ⟨⟨fun _ => Or.inr (Or.inl hB2), fun _ => ⟨_, _, hres⟩⟩, ?_, ?_⟩
      · intro e ev2 h
        rw [hres] at h
        injection h with h1 h2
        exact ⟨"position", h1.symm⟩
      · rintro ⟨_, hv, _⟩
        rw [hB2] at hv
        exact absurd hv (by simp)

/-- A concrete evaluation with the game at id 10 and no `visuals` attribute yet. -/
def c8Ev : Evaluation :=
  { heap := fun i =>
      if i = 10 then ⟨10, "wollok.game.game", [], none⟩ else blankObject i,
    operandStack := [], nextId := 20, gameId := 10, ioId := 4, mirrorId := 5,
    positionResolvable := fun _ => true, sendResult := fun _ _ _ => 0 }

/-- C8 witness: the specification applied to a concrete successful insertion. -/
theorem addVisual_spec_witness :
    ∃ ev2, game.addVisual 10 11 c8Ev = NativeResult.ok ev2
      ∧ visualsElems ev2 10 = visualsElems c8Ev 10 ++ [11]
      ∧ ev2.operandStack = VOID_ID :: c8Ev.operandStack :=
  (addVisual_spec c8Ev 10 11 (by decide)
      (by
        intro lid hl
        rw [show c8Ev.rawAttr 10 "visuals" = none from rfl] at hl
        exact absurd hl (by simp))).2.2
    ⟨by decide, rfl, by decide⟩

theorem statusStr_ne_iff (ev : Evaluation) (i : Id) (s : String) :
    statusStr ev i ≠ some s ↔
      (ev.getAttr i "status").bind RuntimeObject.innerValue ≠ some (InnerValue.str s) :=
  not_congr (statusStr_eq_some_iff ev i s)

theorem statusStr_after_set (ev : Evaluation) (selfId : Id) (s : String)
    (hself : selfId < ev.nextId) :
    statusStr ((newWString s ev).2.setAttr selfId "status" (newWString s ev).1) selfId
      = some s := by
  have hne : ev.nextId ≠ selfId := ne_of_gt hself
  have h0 : (newWString s ev).1 = ev.nextId := rfl
  have h1 : ((newWString s ev).2.setAttr selfId "status" (newWString s ev).1).rawAttr selfId
      "status" = some ev.nextId := by
    rw [h0]
    exact rawAttr_setAttr_self _ _ _ _
  have h2 : (((newWString s ev).2.setAttr selfId "status" (newWString s ev).1).heap
      ev.nextId).innerValue = some (InnerValue.str s) := by
    rw [show ((newWString s ev).2.setAttr selfId "status" (newWString s ev).1).heap ev.nextId
        = (newWString s ev).2.heap ev.nextId by simp [Evaluation.setAttr, hne]]
    exact inner_createInstance_self ev _ _
  simp [statusStr, Evaluation.getAttr, h1, h2]

theorem rawAttr_after_set_other (ev : Evaluation) (selfId oid : Id) (s : String) (v : Id)
    (hne : oid ≠ selfId) (hlt : oid < ev.nextId) (k : String) :
    ((newWString s ev).2.setAttr selfId "status" v).rawAttr oid k = ev.rawAttr oid k := by
  rw [rawAttr_setAttr_ne_obj hne]
  simp only [newWString]
  exact rawAttr_createInstance_ne ev _ _ (ne_of_lt hlt) k

theorem inner_after_set_other (ev : Evaluation) (selfId v lid : Id) (s : String)
    (hlt : lid < ev.nextId) :
    (((newWString s ev).2.setAttr selfId "status" v).heap lid).innerValue
      = (ev.heap lid).innerValue := by
  rw [inner_setAttr]
  simp only [newWString]
  exact inner_createInstance_ne ev _ _ (ne_of_lt hlt)

theorem soundsElems_after_set (ev : Evaluation) (selfId v : Id) (s : String)
    (hg1 : ev.gameId ≠ selfId) (hg2 : ev.gameId < ev.nextId)
    (ht : innerListTyped ev ev.gameId "sounds") :
    soundsElems ((newWString s ev).2.setAttr selfId "status" v) = soundsElems ev := by
  unfold soundsElems innerListAt
  rw [show ((newWString s ev).2.setAttr selfId "status" v).gameId = ev.gameId by
    simp [newWString]]
  rw [rawAttr_after_set_other ev selfId ev.gameId s v hg1 hg2 "sounds"]
  cases hraw : ev.rawAttr ev.gameId "sounds" with
  | none => rfl
  | some lid =>
    obtain ⟨hlt, l, hinner⟩ := ht lid hraw
    simp [inner_after_set_other ev selfId v lid s hlt]

theorem statusStr_transport {ev ev2 : Evaluation} (i : Id)
    (hraw : ev2.rawAttr i "status" = ev.rawAttr i "status")
    (hheap : ∀ j, ev.rawAttr i "status" = some j →
      (ev2.heap j).innerValue = (ev.heap j).innerValue) :
    statusStr ev2 i = statusStr ev i := by
  unfold statusStr Evaluation.getAttr
  rw [hraw]
  cases hr : ev.rawAttr i "status" with
  | none => rfl
  | some j => simp [hheap j hr]

theorem statusStr_setInner_ne (ev : Evaluation) (i lid : Id) (iv : InnerValue)
    (hj : ∀ j, ev.rawAttr i "status" = some j → j ≠ lid) :
    statusStr (ev.setInner lid iv) i = statusStr ev i := by
  apply statusStr_transport
  · exact rawAttr_setInner ev lid iv i "status"
  · intro j hjs
    exact inner_setInner_ne (hj j hjs) ev iv

theorem statusStr_attach_list (E : Evaluation) (wId i : Id) (hi : i ≠ wId)
    (hlt : i < E.nextId)
    (hj : ∀ j, E.rawAttr i "status" = some j → j ≠ E.nextId) (k : String) (iv : InnerValue) :
    statusStr (((newList E []).2.setAttr wId k E.nextId).setInner E.nextId iv) i
      = statusStr E i := by
  apply statusStr_transport
  · rw [rawAttr_setInner, rawAttr_setAttr_ne_obj hi]
    simp only [newList]
    exact rawAttr_createInstance_ne E _ _ (ne_of_lt hlt) "status"
  · intro j hjs
    have hne := hj j hjs
    rw [inner_setInner_ne hne, inner_setAttr]
    simp only [newList]
    exact inner_createInstance_ne E _ _ hne

theorem soundsElems_attach (E : Evaluation) (wId elemId : Id) (hwid : E.gameId = wId) :
    soundsElems (((newList E []).2.setAttr wId "sounds" E.nextId).setInner E.nextId
      (InnerValue.listV [elemId])) = [elemId] := by
  unfold soundsElems innerListAt
  rw [show (((newList E []).2.setAttr wId "sounds" E.nextId).setInner E.nextId
      (InnerValue.listV [elemId])).gameId = wId by simp [newList, ← hwid]]
  rw [rawAttr_setInner, rawAttr_setAttr_self]
  simp [inner_setInner_self]

theorem soundsElems_setInner_list (E : Evaluation) (lid : Id) (L : List Id)
    (hraw : E.rawAttr E.gameId "sounds" = some lid) :
    soundsElems (E.setInner lid (InnerValue.listV L)) = L := by
  unfold soundsElems innerListAt
  rw [show (E.setInner lid (InnerValue.listV L)).gameId = E.gameId from rfl,
    rawAttr_setInner, hraw]
  simp [inner_setInner_self]

theorem removeFromInnerCollection_present (wId elemId : Id) (fieldName : String)
    (ev : Evaluation) {lid : Id} (hraw : ev.rawAttr wId fieldName = some lid)
    {l : List Id} (hinner : (ev.heap lid).innerValue = some (InnerValue.listV l)) :
    removeFromInnerCollection wId elemId fieldName ev =
      NativeResult.ok (ev.setInner lid (InnerValue.listV
        (l.filter (fun i => decide (i ≠ elemId))))) := by
  simp [removeFromInnerCollection, hraw, hinner]

/-- Well-formedness of a sound/game scene: the sound and the game are distinct
allocated objects, the `sounds` attribute of the game (when present) is a proper list,
and the sound is registered in `game.sounds` exactly when its status is `"played"`
or `"paused"` (which holds in every state the natives can reach from Idle). -/
structure SoundSceneWF (ev : Evaluation) (selfId : Id) : Prop where
  selfNotGame : selfId ≠ ev.gameId
  selfAlloc : selfId < ev.nextId
  gameAlloc : ev.gameId < ev.nextId
  soundsTyped : innerListTyped ev ev.gameId "sounds"
  memIff : selfId ∈ soundsElems ev ↔
    (statusStr ev selfId = some "played" ∨ statusStr ev selfId = some "paused")

/-- C5 amended: the per-event behavior of the `Sound` natives over a well-formed
scene.  `play` requires the game to be running; from Idle or Stopped it succeeds,
sets `status` to `"played"` and registers the sound; from Played or Paused it
throws the duplicate-insertion `TypeError` — but only after having already
overwritten `status` to `"played"` (leaving `game.sounds` unchanged), so a failing
`play` is not state-preserving.  `stop`, `pause` and `resume` succeed exactly from
the claimed source states with the claimed effects, and otherwise throw a
descriptive error leaving the evaluation untouched. -/
theorem sound_state_machine (ev : Evaluation) (selfId : Id) (hwf : SoundSceneWF ev selfId) :
    (runningOf ev ≠ some TRUE_ID →
      Sound.play selfId ev = NativeResult.thrown
        (RuntimeError.jsError "You cannot play a sound if game has not started") ev)
    ∧ (runningOf ev = some TRUE_ID →
        (statusStr ev selfId = none ∨ statusStr ev selfId = some "stopped") →
        ∃ ev2, Sound.play selfId ev = NativeResult.ok ev2
          ∧ statusStr ev2 selfId = some "played" ∧ selfId ∈ soundsElems ev2)
    ∧ (runningOf ev = some TRUE_ID →
        (statusStr ev selfId = some "played" ∨ statusStr ev selfId = some "paused") →
        ∃ m ev2, Sound.play selfId ev = NativeResult.thrown (RuntimeError.typeError m) ev2
          ∧ statusStr ev2 selfId = some "played" ∧ soundsElems ev2 = soundsElems ev)
    ∧ (statusStr ev selfId = some "played" →
        ∃ ev2, Sound.stop selfId ev = NativeResult.ok ev2
          ∧ statusStr ev2 selfId = some "stopped" ∧ selfId ∉ soundsElems ev2)
    ∧ (statusStr ev selfId ≠ some "played" →
        Sound.stop selfId ev = NativeResult.thrown
          (RuntimeError.jsError "You cannot stop a sound that is not played") ev)
    ∧ (statusStr ev selfId = some "played" →
        ∃ ev2, Sound.pause selfId ev = NativeResult.ok ev2
          ∧ statusStr ev2 selfId = some "paused")
    ∧ (statusStr ev selfId ≠ some "played" →
        Sound.pause selfId ev = NativeResult.thrown
          (RuntimeError.jsError "You cannot pause a sound that is not played") ev)
    ∧ (statusStr ev selfId = some "paused" →
        ∃ ev2, Sound.resume selfId ev = NativeResult.ok ev2
          ∧ statusStr ev2 selfId = some "played")
    ∧ (statusStr ev selfId ≠ some "paused" →
        Sound.resume selfId ev = NativeResult.thrown
          (RuntimeError.jsError "You cannot resume a sound that is not paused") ev) := by
  obtain ⟨hg1, hself, hg2, ht, hmem⟩ := hwf
  have hgs : ev.gameId ≠ selfId := fun hc => hg1 hc.symm
  have hSg : ∀ s : String, ((newWString s ev).2.setAttr selfId "status"
      (newWString s ev).1).gameId = ev.gameId := fun s => by simp [newWString]
  have hSn : ∀ s : String, ((newWString s ev).2.setAttr selfId "status"
      (newWString s ev).1).nextId = ev.nextId + 1 := fun s => by simp [newWString]
  have hSraw : ∀ (s : String) (k2 : String), ((newWString s ev).2.setAttr selfId "status"
      (newWString s ev).1).rawAttr ev.gameId k2 = ev.rawAttr ev.gameId k2 :=
    fun s k2 => rawAttr_after_set_other ev selfId ev.gameId s _ hgs hg2 k2
  have hSb : ∀ s : String, statusStr ((newWString s ev).2.setAttr selfId "status"
      (newWString s ev).1) selfId = some s :=
    fun s => statusStr_after_set ev selfId s hself
  have hSstat : ∀ s : String, ((newWString s ev).2.setAttr selfId "status"
      (newWString s ev).1).rawAttr selfId "status" = some ev.nextId := fun s => by
    rw [show (newWString s ev).1 = ev.nextId from rfl]
    exact rawAttr_setAttr_self _ _ _ _
  refine ⟨?_, ?_, ?_, ?_, ?_, ?_, ?_, ?_, ?_⟩
  · -- play with the game not running
    intro h
    have h2 : (ev.getAttr ev.gameId "running").map RuntimeObject.id ≠ some TRUE_ID := h
    simp only [Sound.play]
    rw [if_pos h2]
  · -- play from Idle or Stopped
    intro hrun hstat
    have hnp : statusStr ev selfId ≠ some "played" ∧ statusStr ev selfId ≠ some "paused" := by
      rcases hstat with h2 | h2 <;> rw [h2] <;> exact ⟨by decide, by decide⟩
    have hnm : selfId ∉ soundsElems ev := fun hm => by
      rcases hmem.mp hm with hp | hp
      · exact hnp.1 hp
      · exact hnp.2 hp
    have hcond : ¬((ev.getAttr ev.gameId "running").map RuntimeObject.id ≠ some TRUE_ID) :=
      fun hc => hc hrun
    simp only [Sound.play]
    rw [if_neg hcond]
    rw [show ((newWString "played" ev).2.setAttr selfId "status"
        (newWString "played" ev).1).gameId = ev.gameId from hSg "played"]
    cases hraw : ev.rawAttr ev.gameId "sounds" with
    | none =>
      rw [addToInnerCollection_absent ev.gameId selfId "sounds" _
        (by rw [hSraw "played" "sounds", hraw])
        (by rw [hSn "played"]; exact Nat.lt_succ_of_lt hg2)]
      refine ⟨_, rfl, ?_, ?_⟩
      · simp only [returnVoid, returnValue, statusStr_pushOperand]
        rw [statusStr_attach_list _ ev.gameId selfId hg1
          (by rw [hSn "played"]; exact Nat.lt_succ_of_lt hself)
          (fun j hj => by
            rw [hSstat "played"] at hj
            injection hj with hj
            rw [← hj, hSn "played"]
            exact ne_of_lt (Nat.lt_succ_self _)) "sounds" _]
        exact hSb "played"
      · simp only [returnVoid, returnValue, soundsElems_pushOperand]
        rw [soundsElems_attach _ ev.gameId selfId (hSg "played")]
        exact List.mem_singleton.mpr rfl
    | some lid =>
      obtain ⟨hlt, l, hinner⟩ := ht lid hraw
      have hE : soundsElems ev = l := by simp [soundsElems, innerListAt, hraw, hinner]
      have hnm2 : selfId ∉ l := by rw [← hE]; exact hnm
      rw [addToInnerCollection_present_notmem ev.gameId selfId "sounds" _
        (by rw [hSraw "played" "sounds"]; exact hraw)
        (by rw [inner_after_set_other ev selfId _ lid "played" hlt]; exact hinner) hnm2]
      refine ⟨_, rfl, ?_, ?_⟩
      · simp only [returnVoid, returnValue, statusStr_pushOperand]
        rw [statusStr_setInner_ne _ selfId lid _
          (fun j hj => by
            rw [hSstat "played"] at hj
            injection hj with hj
            rw [← hj]
            exact ne_of_gt hlt)]
        exact hSb "played"
      · simp only [returnVoid, returnValue, soundsElems_pushOperand]
        rw [soundsElems_setInner_list _ lid (l ++ [selfId])
          (by rw [show ((newWString "played" ev).2.setAttr selfId "status"
              (newWString "played" ev).1).gameId = ev.gameId from hSg "played",
              hSraw "played" "sounds"]; exact hraw)]
        exact List.mem_append_right _ (List.mem_singleton.mpr rfl)
  · -- play from Played or Paused: throws after overwriting the status
    intro hrun hstat
    have hm : selfId ∈ soundsElems ev := hmem.mpr hstat
    have hcond : ¬((ev.getAttr ev.gameId "running").map RuntimeObject.id ≠ some TRUE_ID) :=
      fun hc => hc hrun
    cases hraw : ev.rawAttr ev.gameId "sounds" with
    | none => exact absurd hm (by simp [soundsElems, innerListAt, hraw])
    | some lid =>
      obtain ⟨hlt, l, hinner⟩ := ht lid hraw
      have hE : soundsElems ev = l := by simp [soundsElems, innerListAt, hraw, hinner]
      have hm2 : selfId ∈ l := by rw [← hE]; exact hm
      simp only [Sound.play]
      rw [if_neg hcond]
      rw [show ((newWString "played" ev).2.setAttr selfId "status"
          (newWString "played" ev).1).gameId = ev.gameId from hSg "played"]
      rw [addToInnerCollection_present_mem ev.gameId selfId "sounds" _
        (by rw [hSraw "played" "sounds"]; exact hraw)
        (by rw [inner_after_set_other ev selfId _ lid "played" hlt]; exact hinner) hm2]
      refine ⟨_, _, rfl, ?_, ?_⟩
      · exact hSb "played"
      · exact soundsElems_after_set ev selfId _ "played" hgs hg2 ht
  · -- stop from Played
    intro hp
    have hguard : ¬(((ev.getAttr selfId "status").bind RuntimeObject.innerValue)
        ≠ some (InnerValue.str "played")) :=
      fun hc => hc ((statusStr_eq_some_iff ev selfId "played").mp hp)
    have hm : selfId ∈ soundsElems ev := hmem.mpr (Or.inl hp)
    cases hraw : ev.rawAttr ev.gameId "sounds" with
    | none => exact absurd hm (by simp [soundsElems, innerListAt, hraw])
    | some lid =>
      obtain ⟨hlt, l, hinner⟩ := ht lid hraw
      simp only [Sound.stop]
      rw [if_neg hguard]
      rw [show ((newWString "stopped" ev).2.setAttr selfId "status"
          (newWString "stopped" ev).1).gameId = ev.gameId from hSg "stopped"]
      rw [removeFromInnerCollection_present ev.gameId selfId "sounds" _
        (by rw [hSraw "stopped" "sounds"]; exact hraw)
        (by rw [inner_after_set_other ev selfId _ lid "stopped" hlt]; exact hinner)]
      refine ⟨_, rfl, ?_, ?_⟩
      · simp only [returnVoid, returnValue, statusStr_pushOperand]
        rw [statusStr_setInner_ne _ selfId lid _
          (fun j hj => by
            rw [hSstat "stopped"] at hj
            injection hj with hj
            rw [← hj]
            exact ne_of_gt hlt)]
        exact hSb "stopped"
      · simp only [returnVoid, returnValue, soundsElems_pushOperand]
        rw [soundsElems_setInner_list _ lid _
          (by rw [show ((newWString "stopped" ev).2.setAttr selfId "status"
              (newWString "stopped" ev).1).gameId = ev.gameId from hSg "stopped",
              hSraw "stopped" "sounds"]; exact hraw)]
        simp [List.mem_filter]
  · -- stop otherwise
    intro hp
    have hgd := (statusStr_ne_iff ev selfId "played").mp hp
    simp only [Sound.stop]
    rw [if_pos hgd]
  · -- pause from Played
    intro hp
    have hguard : ¬(((ev.getAttr selfId "status").bind RuntimeObject.innerValue)
        ≠ some (InnerValue.str "played")) :=
      fun hc => hc ((statusStr_eq_some_iff ev selfId "played").mp hp)
    simp only [Sound.pause]
    rw [if_neg hguard]
    refine ⟨_, rfl, ?_⟩
    simp only [returnVoid, returnValue, statusStr_pushOperand]
    exact hSb "paused"
  · -- pause otherwise
    intro hp
    have hgd := (statusStr_ne_iff ev selfId "played").mp hp
    simp only [Sound.pause]
    rw [if_pos hgd]
  · -- resume from Paused
    intro hp
    have hguard : ¬(((ev.getAttr selfId "status").bind RuntimeObject.innerValue)
        ≠ some (InnerValue.str "paused")) :=
      fun hc => hc ((statusStr_eq_some_iff ev selfId "paused").mp hp)
    simp only [Sound.resume]
    rw [if_neg hguard]
    refine ⟨_, rfl, ?_⟩
    simp only [returnVoid, returnValue, statusStr_pushOperand]
    exact hSb "played"
  · -- resume otherwise
    intro hp
    have hgd := (statusStr_ne_iff ev selfId "paused").mp hp
    simp only [Sound.resume]
    rw [if_pos hgd]

theorem resultElems_returnValue_newList (ev : Evaluation) (L : List Id) :
    resultElems (NativeResult.ok (returnValue (newList ev L).2 (newList ev L).1)) = L := by
  simp [resultElems, returnValue, Evaluation.pushOperand, newList, Evaluation.createInstance]

theorem samePosition_iff (ev : Evaluation) (hwf : HeapWF ev) (pid vid : Id) :
    samePosition ev (ev.heap pid) vid = true ↔
      (ev.rawAttr pid "x" = ev.rawAttr (positionOfId ev vid) "x"
        ∧ ev.rawAttr pid "y" = ev.rawAttr (positionOfId ev vid) "y") := by
  unfold samePosition
  rw [getPosition_fst]
  simp only [Bool.and_eq_true, decide_eq_true_eq]
  rw [objAttr_eq_iff ev hwf, objAttr_eq_iff ev hwf]
  exact Iff.rfl

/-- C9: `getObjectsIn` and `colliders` treat two visuals as colocated exactly when
both the `x` and the `y` attribute ids of their positions agree, where the position
of a visual is its `position` field when present and otherwise the result of sending
the `position` selector (fields take precedence over methods); `colliders`
additionally excludes the queried visual itself by id. -/
theorem colocation_spec (ev : Evaluation) (selfId visualId positionId wid : Id)
    (hwf : HeapWF ev) (ht : innerListTyped ev selfId "visuals") (hv : visualId ≠ NULL_ID) :
    (wid ∈ resultElems (game.getObjectsIn selfId positionId ev) ↔
      (wid ∈ visualsElems ev selfId
        ∧ ev.rawAttr positionId "x" = ev.rawAttr (positionOfId ev wid) "x"
        ∧ ev.rawAttr positionId "y" = ev.rawAttr (positionOfId ev wid) "y"))
    ∧ (wid ∈ resultElems (game.colliders selfId visualId ev) ↔
      (wid ∈ visualsElems ev selfId
        ∧ ev.rawAttr (positionOfId ev visualId) "x" = ev.rawAttr (positionOfId ev wid) "x"
        ∧ ev.rawAttr (positionOfId ev visualId) "y" = ev.rawAttr (positionOfId ev wid) "y"
        ∧ wid ≠ visualId))
    ∧ (∀ p, ev.rawAttr wid "position" = some p → positionOfId ev wid = p)
    ∧ (ev.rawAttr wid "position" = none →
        positionOfId ev wid = ev.sendResult "position" wid []) := by
  have hfield : ∀ p, ev.rawAttr wid "position" = some p → positionOfId ev wid = p := by
    intro p hp
    unfold positionOfId
    rw [hp]
  have hmethod : ev.rawAttr wid "position" = none →
      positionOfId ev wid = ev.sendResult "position" wid [] := by
    intro hp
    unfold positionOfId
    rw [hp]
  refine ⟨?_, ?_, hfield, hmethod⟩
  · cases hraw : ev.rawAttr selfId "visuals" with
    | none =>
      have hres : game.getObjectsIn selfId positionId ev =
          NativeResult.ok (returnValue (newList ev []).2 (newList ev []).1) := by
        simp [game.getObjectsIn, hraw]
      rw [hres, resultElems_returnValue_newList]
      simp [visualsElems, innerListAt, hraw]
    | some lid =>
      obtain ⟨hlt, l, hinner⟩ := ht lid hraw
      have hres : game.getObjectsIn selfId positionId ev =
          NativeResult.ok (returnValue
            (newList ev (l.filter (samePosition ev (ev.instanceOf positionId)))).2
            (newList ev (l.filter (samePosition ev (ev.instanceOf positionId)))).1) := by
        simp [game.getObjectsIn, hraw, hinner]
      rw [hres, resultElems_returnValue_newList]
      rw [show visualsElems ev selfId = l by simp [visualsElems, innerListAt, hraw, hinner]]
      rw [List.mem_filter]
      simp only [Evaluation.instanceOf]
      rw [samePosition_iff ev hwf positionId wid]
  · cases hraw : ev.rawAttr selfId "visuals" with
    | none =>
      have hres : game.colliders selfId visualId ev =
          NativeResult.ok (returnValue (newList ev []).2 (newList ev []).1) := by
        simp [game.colliders, hv, hraw]
      rw [hres, resultElems_returnValue_newList]
      simp [visualsElems, innerListAt, hraw]
    | some lid =>
      obtain ⟨hlt, l, hinner⟩ := ht lid hraw
      have hres : game.colliders selfId visualId ev =
          NativeResult.ok (returnValue
            (newList ev ((l.filter (samePosition ev (getPosition visualId ev).1)).filter
              (fun i => decide (i ≠ visualId)))).2
            (newList ev ((l.filter (samePosition ev (getPosition visualId ev).1)).filter
              (fun i => decide (i ≠ visualId)))).1) := by
        simp [game.colliders, hv, hraw, hinner, getPosition_snd]
      rw [hres, resultElems_returnValue_newList]
      rw [show visualsElems ev selfId = l by simp [visualsElems, innerListAt, hraw, hinner]]
      rw [List.mem_filter, List.mem_filter]
      rw [show (getPosition visualId ev).1 = ev.heap (positionOfId ev visualId) from
        getPosition_fst visualId ev]
      rw [samePosition_iff ev hwf (positionOfId ev visualId) wid]
      simp only [decide_eq_true_eq]
      tauto

/-- The heap of a concrete colocation scene: the game (id 10) holds visuals 14 and
15 in a list (id 12); the position of visual 14 (id 16) and the position of visual
15 (id 17) share the `x` attribute id but differ in `y`. -/
def c9Heap : Id → RuntimeObject := fun i =>
  if i = 10 then ⟨10, "wollok.game.game", [("visuals", 12)], none⟩
  else if i = 12 then ⟨12, "wollok.lang.List", [], some (InnerValue.listV [14, 15])⟩
  else if i = 14 then ⟨14, "wollok.game.Visual", [("position", 16)], none⟩
  else if i = 15 then ⟨15, "wollok.game.Visual", [("position", 17)], none⟩
  else if i = 16 then ⟨16, "wollok.game.Position", [("x", 6), ("y", 7)], none⟩
  else if i = 17 then ⟨17, "wollok.game.Position", [("x", 6), ("y", 8)], none⟩
  else blankObject i

theorem c9Heap_wf : ∀ i, (c9Heap i).id = i := by
  intro i
  unfold c9Heap
  split_ifs <;> subst_vars <;> rfl

/-- The colocation scene as an evaluation. -/
def c9Ev : Evaluation :=
  { heap := c9Heap, operandStack := [], nextId := 20, gameId := 10, ioId := 4, mirrorId := 5,
    positionResolvable := fun _ => true, sendResult := fun _ _ _ => 0 }

/-- C9 witness: the colocation specification applied to the concrete scene, for the
visual that differs in `y`. -/
theorem colocation_spec_witness :
    15 ∈ resultElems (game.colliders 10 14 c9Ev) ↔
      (15 ∈ visualsElems c9Ev 10
        ∧ c9Ev.rawAttr (positionOfId c9Ev 14) "x" = c9Ev.rawAttr (positionOfId c9Ev 15) "x"
        ∧ c9Ev.rawAttr (positionOfId c9Ev 14) "y" = c9Ev.rawAttr (positionOfId c9Ev 15) "y"
        ∧ (15 : Id) ≠ 14) :=
  (colocation_spec c9Ev 10 14 16 15 c9Heap_wf
      (by
        intro lid hl
        rw [show c9Ev.rawAttr 10 "visuals" = some 12 from rfl] at hl
        injection hl with h
        subst h
        exact ⟨by decide, ⟨[14, 15], rfl⟩⟩)
      (by decide)).2.1

/-- A concrete well-formed scene in state Played: the game (id 10) is running, its
`sounds` list (id 12) holds the sound (id 11), whose `status` (id 13) is
`"played"`. -/
def c5wEv : Evaluation :=
  { heap := fun i =>
      if i = 10 then ⟨10, "wollok.game.game", [("running", TRUE_ID), ("sounds", 12)], none⟩
      else if i = 11 then ⟨11, "wollok.game.Sound", [("status", 13)], none⟩
      else if i = 12 then ⟨12, "wollok.lang.List", [], some (InnerValue.listV [11])⟩
      else if i = 13 then ⟨13, "wollok.lang.String", [], some (InnerValue.str "played")⟩
      else blankObject i,
    operandStack := [], nextId := 20, gameId := 10, ioId := 4, mirrorId := 5,
    positionResolvable := fun _ => false, sendResult := fun _ _ _ => 0 }

/-- C5 witness: the state machine theorem applied to a concrete Played scene. -/
theorem sound_state_machine_witness :
    ∃ ev2, Sound.pause 11 c5wEv = NativeResult.ok ev2 ∧ statusStr ev2 11 = some "paused" :=
  (sound_state_machine c5wEv 11
      ⟨by decide, by decide, by decide,
        (by
          intro lid hl
          rw [show c5wEv.rawAttr c5wEv.gameId "sounds" = some 12 from rfl] at hl
          injection hl with h
          subst h
          exact ⟨by decide, ⟨[11], rfl⟩⟩),
        by decide⟩).2.2.2.2.2.1 (by decide)

/-- A concrete evaluation with the game singleton at id 10 (not yet running) and a
sound at id 11 with no `status` attribute (state Idle). -/
def c5Ev0 : Evaluation :=
  { heap := fun i =>
      if i = 10 then ⟨10, "wollok.game.game", [], none⟩
      else if i = 11 then ⟨11, "wollok.game.Sound", [], none⟩
      else blankObject i,
    operandStack := [], nextId := 20, gameId := 10, ioId := 4, mirrorId := 5,
    positionResolvable := fun _ => false, sendResult := fun _ _ _ => 0 }

/-- State after `game.doStart` (the game is running). -/
def c5Ev1 : Evaluation := (game.doStart 10 c5Ev0).evaluation

/-- State after `sound.play()` from Idle. -/
def c5Ev2 : Evaluation := (Sound.play 11 c5Ev1).evaluation

/-- State after `sound.pause()` from Played. -/
def c5Ev3 : Evaluation := (Sound.pause 11 c5Ev2).evaluation

/-- State after the failing `sound.play()` from Paused. -/
def c5Ev4 : Evaluation := (Sound.play 11 c5Ev3).evaluation

/-- C5 counterexample: per the claimed state machine, from Paused the only permitted
transition is `resume`, and `play` merely fails.  In the code `play` from Paused
does throw (the duplicate-`Id` check in `game.sounds`), but only after overwriting
`status` to `"played"` — so the rejected event changes the state of the machine, and a
subsequent `stop` (which the claimed machine would reject in Paused) succeeds. -/
theorem sound_play_from_paused_mutates_status :
    (Sound.play 11 c5Ev1).isOk = true
    ∧ statusStr c5Ev2 11 = some "played"
    ∧ soundsElems c5Ev2 = [11]
    ∧ (Sound.pause 11 c5Ev2).isOk = true
    ∧ statusStr c5Ev3 11 = some "paused"
    ∧ (Sound.play 11 c5Ev3).isThrown = true
    ∧ statusStr c5Ev4 11 = some "played"
    ∧ (Sound.stop 11 c5Ev4).isOk = true := by
  decide

end WollokTs
